import Mathlib

/-!
Verification of the solar-analysis engine (`analyze.py`) against its
natural-language specification.

The Python functions are shallowly embedded as Lean functions over `ℚ`
(the engine's arithmetic is exact in the identities claimed; rounding in
the report layer is display-only and not part of the claimed identities).
Hourly records are embedded as a structure holding the CSV fields the
claims depend on; grouping by month/day uses the same string-prefix keys
as the source (`Date[:7]` and `Date[:10]`).
-/

set_option maxRecDepth 40000

namespace Solar

/-- One hourly record, with the raw CSV fields used by the analysis
functions under verification (`Date`, `Hour`, `PV_Energy_kWh`,
`GridLoad_Energy_kWh`, `BackupLoad_Energy_kWh`, `Grid_Energy_kWh`,
`Battery_Energy_kWh`, `Avg_SOC_Pct`). -/
structure Record where
  date : String
  hour : String
  pv : ℚ
  gridLoadE : ℚ
  backupLoadE : ℚ
  gridE : ℚ
  batteryE : ℚ
  avgSoc : ℚ
  deriving DecidableEq, Repr

/-- `enrich`: `Load_kWh = GridLoad_Energy_kWh + BackupLoad_Energy_kWh`. -/
def loadKwh (r : Record) : ℚ := r.gridLoadE + r.backupLoadE

/-- `enrich`: `Grid_Import_kWh = abs(min(0, Grid_Energy_kWh))`. -/
def gridImportKwh (r : Record) : ℚ := |min 0 r.gridE|

/-- `enrich`: `Grid_Export_kWh = max(0, Grid_Energy_kWh)`. -/
def gridExportKwh (r : Record) : ℚ := max 0 r.gridE

/-- `enrich`: `Battery_Charge_kWh = max(0, Battery_Energy_kWh)`. -/
def batteryChargeKwh (r : Record) : ℚ := max 0 r.batteryE

/-- `enrich`: `Battery_Discharge_kWh = abs(min(0, Battery_Energy_kWh))`. -/
def batteryDischargeKwh (r : Record) : ℚ := |min 0 r.batteryE|

/-- `mean`: sum / length, and 0 for the empty list. -/
def mean (l : List ℚ) : ℚ := if l = [] then 0 else l.sum / l.length

/-- Insert into a list already sorted by the boolean comparator `le`. -/
def orderedInsertBy (le : α → α → Bool) (a : α) : List α → List α
  | [] => [a]
  | b :: l => if le a b then a :: b :: l else b :: orderedInsertBy le a l

/-- Insertion sort by a boolean comparator (Python's `sorted(..., key=...)`
specialised to the comparators used by the source). -/
def insSortBy (le : α → α → Bool) : List α → List α
  | [] => []
  | a :: l => orderedInsertBy le a (insSortBy le l)

/-- Code-point comparison of character lists: Python's lexicographic
string order. -/
def charListLe : List Char → List Char → Bool
  | [], _ => true
  | _ :: _, [] => false
  | a :: as, b :: bs =>
    if a.toNat < b.toNat then true
    else if b.toNat < a.toNat then false
    else charListLe as bs

/-- Python's string `<=` (lexicographic on code points). -/
def strLe (a b : String) : Bool := charListLe a.data b.data

/-- `median`: middle of the sorted list (average of the two middles for
even length), and 0 for the empty list. -/
def median (l : List ℚ) : ℚ :=
  if l = [] then 0
  else
    let s := insSortBy (fun a b => decide (a ≤ b)) l
    let n := s.length
    if n % 2 = 1 then s.getD (n / 2) 0
    else (s.getD (n / 2 - 1) 0 + s.getD (n / 2) 0) / 2

/-- `row_month`: the `YYYY-MM` prefix of the date. -/
def rowMonth (r : Record) : String := r.date.take 7

/-- `row_day`: the `YYYY-MM-DD` prefix of the date. -/
def rowDay (r : Record) : String := r.date.take 10

/-- Keys of `group_by` (each distinct key once). -/
def groupKeys (key : Record → String) (rows : List Record) : List String :=
  (rows.map key).dedup

/-- The group of `group_by` at one key. -/
def groupRows (key : Record → String) (rows : List Record) (k : String) : List Record :=
  rows.filter (fun r => key r = k)

def daysOf (rows : List Record) : List String := groupKeys rowDay rows

def monthsOf (rows : List Record) : List String := groupKeys rowMonth rows

def dayRows (rows : List Record) (d : String) : List Record := groupRows rowDay rows d

def monthRows (rows : List Record) (m : String) : List Record := groupRows rowMonth rows m

/-- A "full" day: more than 20 hourly records. -/
def isFullDay (rows : List Record) (d : String) : Bool :=
  20 < (dayRows rows d).length

/-- The full days of the input, in grouping order. -/
def fullDays (rows : List Record) : List String :=
  (daysOf rows).filter (isFullDay rows)

/-- The input restricted to records belonging to full days. -/
def fullDayRecords (rows : List Record) : List Record :=
  rows.filter (fun r => isFullDay rows (rowDay r))

/-- Total `Load_kWh` of one day. -/
def dailyLoad (rows : List Record) (d : String) : ℚ :=
  ((dayRows rows d).map loadKwh).sum

/-- Total `PV_Energy_kWh` of one day. -/
def dailyPv (rows : List Record) (d : String) : ℚ :=
  ((dayRows rows d).map (·.pv)).sum

/-- `detect_ev_days`: the `daily_loads` map, i.e. day → total load
restricted to full days (`len(drows) > 20`). -/
def fullDayLoads (rows : List Record) : List (String × ℚ) :=
  (daysOf rows).filterMap fun d =>
    if 20 < (dayRows rows d).length then some (d, dailyLoad rows d) else none

/-- Mean of the full-day total loads (`avg_load` in `detect_ev_days`). -/
def avgFullLoad (rows : List Record) : ℚ := mean ((fullDayLoads rows).map Prod.snd)

/-- Summary dictionary built by `detect_ev_days` when at least one full
day exists. -/
structure EvInfo where
  avgDailyLoad : ℚ
  threshold : ℚ
  evDayCount : ℕ
  nonEvDayCount : ℕ
  totalFullDays : ℕ
  evDates : List String
  evAvgLoad : Option ℚ
  nonEvAvgLoad : Option ℚ
  deriving DecidableEq, Repr

/-- `detect_ev_days`: partition the full days into EV / non-EV by the
`load > avg_load + max(8, 0.3*avg_load)` rule; with no full days it
returns two empty sets and an empty summary (modelled as `none`). -/
def detectEvDays (rows : List Record) : List String × List String × Option EvInfo :=
  let dl := fullDayLoads rows
  if dl = [] then ([], [], none)
  else
    let avg := mean (dl.map Prod.snd)
    let thr := max 8 (avg * (3/10))
    let evPairs := dl.filter fun p => avg + thr < p.2
    let nonEvPairs := dl.filter fun p => ¬ avg + thr < p.2
    let ev := evPairs.map Prod.fst
    let nonEv := nonEvPairs.map Prod.fst
    (ev, nonEv,
      some { avgDailyLoad := avg
             threshold := thr
             evDayCount := ev.length
             nonEvDayCount := nonEv.length
             totalFullDays := dl.length
             evDates := insSortBy strLe ev
             evAvgLoad := if evPairs = [] then none else some (mean (evPairs.map Prod.snd))
             nonEvAvgLoad := if nonEvPairs = [] then none else some (mean (nonEvPairs.map Prod.snd)) })

/-- The `has_ev = False` branch of `main`: the EV set is empty and every
full day is classified non-EV. -/
def evPartitionDisabled (rows : List Record) : List String × List String :=
  ([], fullDays rows)

/-- `compute_system_sizing`: `avg_daily_pv` is the mean of per-day PV sums
over all grouped days (source applies no record-count filter here). -/
def avgDailyPv (rows : List Record) : ℚ :=
  mean ((daysOf rows).map (dailyPv rows))

/-- Per the spec's words: the average daily PV with days of 20 or fewer
records excluded. -/
def specAvgDailyPvFull (rows : List Record) : ℚ :=
  mean ((fullDays rows).map (dailyPv rows))

/-- `compute_anomalies`: days in ascending order (`sorted(by_day.keys())`). -/
def sortedDaysOf (rows : List Record) : List String :=
  insSortBy strLe (daysOf rows)

/-- The rolling window `sorted_days[max(0, i-14):i]` used by the PV anomaly
detector (Nat subtraction mirrors `max(0, i-14)`). -/
def pvWindow (sd : List String) (i : ℕ) : List String :=
  (sd.drop (i - 14)).take (i - (i - 14))

/-- `compute_anomalies`, PV part: a day (beyond the first three) is flagged
when its PV is below 60% of the rolling mean of the preceding up-to-14
days, provided that mean is positive.  Source iterates over all grouped
days, with no record-count filter. -/
def pvAnomalyDates (rows : List Record) : List String :=
  let sd := sortedDaysOf rows
  (List.range sd.length).filterMap fun i =>
    if i < 3 then none
    else
      let day := sd.getD i ""
      let refMean := mean ((pvWindow sd i).map (dailyPv rows))
      if 0 < refMean ∧ dailyPv rows day < refMean * (3/5) then some day else none

/-- Per the spec's words: the PV anomaly scan with days of 20 or fewer
records excluded from the series and the rolling baseline. -/
def specPvAnomalyDatesFull (rows : List Record) : List String :=
  let sd := insSortBy strLe (fullDays rows)
  (List.range sd.length).filterMap fun i =>
    if i < 3 then none
    else
      let day := sd.getD i ""
      let refMean := mean ((pvWindow sd i).map (dailyPv rows))
      if 0 < refMean ∧ dailyPv rows day < refMean * (3/5) then some day else none

/-! ## Battery usable-capacity estimation (`compute_battery_analysis`)

The inner `while` loops of the monotonic-run scan are embedded with an
explicit fuel argument; `socs.length` units of fuel provably suffice
since the scan index strictly increases. -/

/-- Inner loop: `while j < len(soc)-1 and soc[j] >= soc[j+1]: j += 1`. -/
def extendRunF (socs : List ℚ) : ℕ → ℕ → ℕ
  | 0, j => j
  | fuel + 1, j =>
    if j + 1 < socs.length ∧ socs.getD (j + 1) 0 ≤ socs.getD j 0 then
      extendRunF socs fuel (j + 1)
    else j

def extendRun (socs : List ℚ) (j : ℕ) : ℕ := extendRunF socs socs.length j

/-- Outer loop of the deepest-run scan, returning
`(best_start, best_end, best_drop)`. -/
def scanRunsF (socs : List ℚ) : ℕ → ℕ → ℕ → ℕ → ℚ → ℕ × ℕ × ℚ
  | 0, _, bs, be, bd => (bs, be, bd)
  | fuel + 1, i, bs, be, bd =>
    if i + 1 < socs.length then
      if socs.getD (i + 1) 0 < socs.getD i 0 then
        let j := extendRun socs (i + 1)
        let drop := socs.getD i 0 - socs.getD j 0
        if bd < drop then scanRunsF socs fuel j i j drop
        else scanRunsF socs fuel j bs be bd
      else scanRunsF socs fuel (i + 1) bs be bd
    else (bs, be, bd)

/-- The full scan `best_start = best_end = 0; best_drop = 0; i = 0; while ...`. -/
def bestRun (socs : List ℚ) : ℕ × ℕ × ℚ := scanRunsF socs socs.length 0 0 0 0

/-- A contiguous monotonic non-increasing run of the SOC sequence, from
index `a` to index `b`. -/
def NonIncRun (socs : List ℚ) (a b : ℕ) : Prop :=
  a ≤ b ∧ b < socs.length ∧ ∀ k, a ≤ k → k < b → socs.getD (k + 1) 0 ≤ socs.getD k 0

/-- SOC drop of the run from `a` to `b`. -/
def runDrop (socs : List ℚ) (a b : ℕ) : ℚ := socs.getD a 0 - socs.getD b 0

/-- One day's rows sorted by the `Hour` string, as in
`sorted(drows, key=lambda r: r["Hour"])`. -/
def hourSorted (drows : List Record) : List Record :=
  insSortBy (fun a b => strLe a.hour b.hour) drows

/-- The hour-ordered `Avg_SOC_Pct` sequence of a day. -/
def socVals (drows : List Record) : List ℚ := (hourSorted drows).map (·.avgSoc)

/-- The hour-ordered `Battery_Discharge_kWh` sequence of a day. -/
def dischargeVals (drows : List Record) : List ℚ :=
  (hourSorted drows).map batteryDischargeKwh

/-- `discharge_vals[best_start : best_end + 1]` summed. -/
def windowDischarge (drows : List Record) (bs be : ℕ) : ℚ :=
  (((dischargeVals drows).drop bs).take (be + 1 - bs)).sum

/-- One day's usable-capacity estimate: `some est` exactly when the
deepest drop exceeds 30 points and the discharge in the window is
positive (`if best_drop > 30 ... if best_drop > 0 and discharge > 0`). -/
def dayUsableEstimate (drows : List Record) : Option ℚ :=
  let socs := socVals drows
  let r := bestRun socs
  let bd := r.2.2
  if 30 < bd then
    let w := windowDischarge drows r.1 r.2.1
    if 0 < bd ∧ 0 < w then some (w / (bd / 100)) else none
  else none

/-- `usable_estimates`: one optional estimate per grouped day (the source
iterates over all of `by_day`, with no record-count filter). -/
def usableEstimates (rows : List Record) : List ℚ :=
  (daysOf rows).filterMap fun d => dayUsableEstimate (dayRows rows d)

/-- `estimated_usable = median(usable_estimates) if usable_estimates else nominal_kwh * 0.9`. -/
def estimatedUsable (rows : List Record) (nominal : ℚ) : ℚ :=
  if usableEstimates rows = [] then nominal * (9/10) else median (usableEstimates rows)

/-- Per the claim's words: one estimate for each *full* day whose deepest
drop exceeds 30 points, with no requirement that the window discharge be
positive. -/
def claimDayEstimate (drows : List Record) : Option ℚ :=
  let socs := socVals drows
  let r := bestRun socs
  let bd := r.2.2
  if 30 < bd then some (windowDischarge drows r.1 r.2.1 / (bd / 100)) else none

def claimUsableEstimates (rows : List Record) : List ℚ :=
  (fullDays rows).filterMap fun d => claimDayEstimate (dayRows rows d)

def claimEstimatedUsable (rows : List Record) (nominal : ℚ) : ℚ :=
  if claimUsableEstimates rows = [] then nominal * (9/10)
  else median (claimUsableEstimates rows)

/-! ## Monthly totals (`compute_monthly_totals`) -/

/-- One month's aggregate (pre-rounding values; `round(..., 1)` in the
source is display formatting of these quantities). -/
structure MonthTotals where
  totalPv : ℚ
  totalLoad : ℚ
  gridExport : ℚ
  gridImport : ℚ
  batteryCharge : ℚ
  batteryDischarge : ℚ
  selfConsumed : ℚ
  scRate : ℚ
  selfSufficiency : Option ℚ
  days : ℕ
  deriving DecidableEq, Repr

/-- `compute_monthly_totals` applied to one month's rows. -/
def computeMonthlyTotals (mrows : List Record) : MonthTotals :=
  let totalPv := (mrows.map (·.pv)).sum
  let totalLoad := (mrows.map loadKwh).sum
  let gridExport := (mrows.map gridExportKwh).sum
  let gridImport := (mrows.map gridImportKwh).sum
  let batteryCharge := (mrows.map batteryChargeKwh).sum
  let batteryDischarge := (mrows.map batteryDischargeKwh).sum
  let selfConsumed := totalLoad - gridImport
  { totalPv := totalPv
    totalLoad := totalLoad
    gridExport := gridExport
    gridImport := gridImport
    batteryCharge := batteryCharge
    batteryDischarge := batteryDischarge
    selfConsumed := selfConsumed
    scRate := if 0 < totalPv then selfConsumed / totalPv * 100 else 0
    selfSufficiency := if 0 < totalLoad then some ((1 - gridImport / totalLoad) * 100) else none
    days := ((mrows.map rowDay).dedup).length }

/-- "Exactly one of `a` and `b` is non-zero", read literally. -/
def ExactlyOneNonzero (a b : ℚ) : Prop := (a ≠ 0 ∧ b = 0) ∨ (a = 0 ∧ b ≠ 0)

/-! ## Bill simulation (`compute_bill_impact`) -/

/-- Tariff configurations: flat rate; tiered thresholds with rates; or
time-of-use peak/offpeak rates over a peak-hour set.  Each carries the
`import_rate` used for the feed-in credit. -/
inductive Tariff where
  | flat (importRate : ℚ)
  | tiered (importRate : ℚ) (tiers : List (ℚ × ℚ))
  | tou (importRate : ℚ) (peakHours : List String) (peakRate offpeakRate : ℚ)
  deriving DecidableEq, Repr

def Tariff.importRateOf : Tariff → ℚ
  | .flat r => r
  | .tiered r _ => r
  | .tou r _ _ _ => r

/-- `calc_tiered`'s loop: each tier `(threshold, rate)` consumes up to
`threshold - prev_threshold` of the remaining energy at its own rate; the
loop breaks once nothing remains, and energy beyond the last threshold is
billed at `lastRate` (the last tier's rate). -/
def calcTieredAux (lastRate : ℚ) : List (ℚ × ℚ) → ℚ → ℚ → ℚ
  | [], _, remaining => if 0 < remaining then remaining * lastRate else 0
  | (thresh, rate) :: rest, prevThresh, remaining =>
    let tierKwh := min remaining (thresh - prevThresh)
    if remaining - tierKwh ≤ 0 then tierKwh * rate
    else tierKwh * rate + calcTieredAux lastRate rest thresh (remaining - tierKwh)

/-- `calc_tiered`: with no tiers fall back to the flat import rate. -/
def calcTiered (importRate : ℚ) (tiers : List (ℚ × ℚ)) (kwh : ℚ) : ℚ :=
  match tiers with
  | [] => kwh * importRate
  | (t₀, r₀) :: rest =>
    let lastRate := (((t₀, r₀) :: rest).getLast (by simp)).2
    calcTieredAux lastRate ((t₀, r₀) :: rest) 0 kwh

/-- `calc_tou_monthly`: bill each hourly energy value at the peak or
offpeak rate according to its `Hour`. -/
def calcTouMonthly (peakHours : List String) (peakRate offpeakRate : ℚ)
    (mrows : List Record) (f : Record → ℚ) : ℚ :=
  (mrows.map fun r => f r * (if r.hour ∈ peakHours then peakRate else offpeakRate)).sum

/-- One month's bill figures (pre-rounding). -/
structure MonthBill where
  withoutSolar : ℚ
  withSolar : ℚ
  feedinCredit : ℚ
  netSavings : ℚ
  deriving DecidableEq, Repr

/-- The per-month body of `compute_bill_impact`: "without solar" bills the
total load, "with solar" bills the grid import only, the feed-in credit is
`export × import_rate × feedin_ratio`, and
`net_savings = without − with + credit`. -/
def monthBill (t : Tariff) (feedinRatio : ℚ) (mrows : List Record) : MonthBill :=
  let totalLoad := (mrows.map loadKwh).sum
  let gridImport := (mrows.map gridImportKwh).sum
  let gridExport := (mrows.map gridExportKwh).sum
  let withoutSolar :=
    match t with
    | .flat r => totalLoad * r
    | .tiered r tiers => calcTiered r tiers totalLoad
    | .tou _ ph pr opr => calcTouMonthly ph pr opr mrows loadKwh
  let withSolar :=
    match t with
    | .flat r => gridImport * r
    | .tiered r tiers => calcTiered r tiers gridImport
    | .tou _ ph pr opr => calcTouMonthly ph pr opr mrows gridImportKwh
  let feedinCredit := gridExport * t.importRateOf * feedinRatio
  { withoutSolar := withoutSolar
    withSolar := withSolar
    feedinCredit := feedinCredit
    netSavings := withoutSolar - withSolar + feedinCredit }

/-! ## ROI (`compute_roi`) -/

structure RoiConfig where
  totalCost : ℚ
  systemAgeYears : ℚ
  deriving DecidableEq, Repr

/-- The non-error payload of `compute_roi` (pre-rounding). -/
structure RoiOk where
  totalCost : ℚ
  systemAgeYears : ℚ
  dailySavings : ℚ
  annualSavingsYear1 : ℚ
  simplePayback : Option ℚ
  remainingPayback : Option ℚ
  lifetimeSavings25 : ℚ
  deriving DecidableEq, Repr

/-- `compute_roi` returns either the `{"error": "No savings..."}` sentinel
or the metrics. -/
inductive RoiResult where
  | noSavings
  | ok (r : RoiOk)
  deriving DecidableEq, Repr

/-- Year-`n` degraded savings: `annual_savings * (1 - 0.005)^n`. -/
def degSavings (s : ℚ) (n : ℕ) : ℚ := s * (199/200) ^ n

/-- Cumulative degraded savings over whole years `0 .. n-1`. -/
def partialSum (s : ℚ) (n : ℕ) : ℚ := ((List.range n).map (degSavings s)).sum

/-- The payback-search loop of `compute_roi`: accumulate year-by-year
(years `0..25` when started with 26 units of fuel), recording on the first
crossing `n + (total_cost - prev_cum) / year_savings` (fraction 0 if the
year's savings are not positive). -/
def paybackGo (s c : ℚ) : ℕ → ℕ → ℚ → Option ℚ → Option ℚ
  | 0, _, _, pb => pb
  | fuel + 1, n, cum, pb =>
    let ys := degSavings s n
    let cum' := cum + ys
    let pb' :=
      match pb with
      | some p => some p
      | none =>
        if c ≤ cum' then some ((n : ℚ) + (if 0 < ys then (c - cum) / ys else 0))
        else none
    paybackGo s c fuel (n + 1) cum' pb'

/-- `payback_year` after the 26-iteration loop (`for n in range(26)`). -/
def paybackYear (s c : ℚ) : Option ℚ := paybackGo s c 26 0 0 none

/-- `lifetime_savings_25`: 25-year cumulative degraded savings. -/
def lifetimeSavings25 (s : ℚ) : ℚ := partialSum s 25

/-- Cumulative degraded savings up to a fractional year `t` (whole years
below `⌊t⌋`, plus the fraction of year `⌊t⌋`). -/
def cumTo (s : ℚ) (t : ℚ) : ℚ :=
  partialSum s ⌊t⌋.toNat + (t - ⌊t⌋) * degSavings s ⌊t⌋.toNat

/-- `compute_roi`: `None` without an ROI config; the "No savings" error
when annual savings ≤ 0; otherwise the payback metrics, where the
reported `simple_payback` and `remaining_payback` are `null` when the
loop found no crossing or when the crossing year is falsy (exactly 0). -/
def computeRoi (cfg : Option RoiConfig) (annualSavings : ℚ) : Option RoiResult :=
  match cfg with
  | none => none
  | some c =>
    if annualSavings ≤ 0 then some .noSavings
    else
      let pb := paybackYear annualSavings c.totalCost
      let reported : Option ℚ :=
        match pb with
        | none => none
        | some p => if p = 0 then none else some p
      some (.ok
        { totalCost := c.totalCost
          systemAgeYears := c.systemAgeYears
          dailySavings := annualSavings / 365
          annualSavingsYear1 := annualSavings
          simplePayback := reported
          remainingPayback :=
            match pb with
            | none => none
            | some p => if p = 0 then none else some (max 0 (p - c.systemAgeYears))
          lifetimeSavings25 := lifetimeSavings25 annualSavings })

/-- The reported `simple_payback` field of an ROI result. -/
def roiSimplePayback : Option RoiResult → Option ℚ
  | some (.ok r) => r.simplePayback
  | _ => none

/-- The reported `remaining_payback` field of an ROI result. -/
def roiRemainingPayback : Option RoiResult → Option ℚ
  | some (.ok r) => r.remainingPayback
  | _ => none

/-! ## Battery health (`compute_battery_health`) -/

structure BatteryHealth where
  dailyEquivCycles : ℚ
  annualCycles : ℚ
  cyclesUsed : ℚ
  remainingCycleYears : Option ℚ
  deriving DecidableEq, Repr

/-- `compute_battery_health`, as a function of the usable-capacity and
average-discharge figures it reads from the battery analysis, and the
system age.  `float("inf")` (reported as `null`) is modelled as `none`. -/
def computeBatteryHealth (usable avgDischarge systemAge : ℚ) : BatteryHealth :=
  let dailyCycles := if 0 < usable then avgDischarge / usable else 0
  let annualCycles := dailyCycles * 365
  let cyclesUsed := annualCycles * systemAge
  let remainingCycles := max 0 (6000 - cyclesUsed)
  { dailyEquivCycles := dailyCycles
    annualCycles := annualCycles
    cyclesUsed := cyclesUsed
    remainingCycleYears :=
      if 0 < annualCycles then some (remainingCycles / annualCycles) else none }

/-! ## Concrete inputs used to instantiate and to refute claims -/

/-- A full day (21 records) of constant per-record grid-load energy. -/
def mkLoadDay (d : String) (perRec : ℚ) : List Record :=
  (List.range 21).map fun _ =>
    { date := d, hour := "00:00", pv := 0, gridLoadE := perRec
      backupLoadE := 0, gridE := 0, batteryE := 0, avgSoc := 0 }

/-- `n` records of constant per-record PV energy on one day. -/
def mkPvDay (d : String) (pvPerRec : ℚ) (n : ℕ) : List Record :=
  (List.range n).map fun _ =>
    { date := d, hour := "00:00", pv := pvPerRec, gridLoadE := 0
      backupLoadE := 0, gridE := 0, batteryE := 0, avgSoc := 0 }

/-- Two-digit hour label, so lexicographic order equals numeric order. -/
def hourName (i : ℕ) : String := (if i < 10 then "0" else "") ++ toString i

/-- A full day (21 records) whose SOC holds at 80 and then drops to 40 at
the last hour, with no battery discharge energy. -/
def mkSocRampDay (d : String) : List Record :=
  (List.range 21).map fun i =>
    { date := d, hour := hourName i, pv := 0, gridLoadE := 0
      backupLoadE := 0, gridE := 0, batteryE := 0
      avgSoc := if i = 20 then 40 else 80 }

/-- A partial day: two records with a 40-point SOC drop and 4 kWh of
battery discharge. -/
def rowsC1a : List Record :=
  [ { date := "p1", hour := "00", pv := 0, gridLoadE := 0, backupLoadE := 0
      gridE := 0, batteryE := -4, avgSoc := 80 }
  , { date := "p1", hour := "01", pv := 0, gridLoadE := 0, backupLoadE := 0
      gridE := 0, batteryE := 0, avgSoc := 40 } ]

/-- A full day with a 40-point monotonic SOC drop but zero discharge. -/
def rowsC1b : List Record := mkSocRampDay "s1"

def recC3 : Record :=
  { date := "2026-01-01", hour := "00:00", pv := 5, gridLoadE := 0
    backupLoadE := 0, gridE := -10, batteryE := 0, avgSoc := 0 }

/-- A record for the month aggregate witness: PV 10, load 3, import 1. -/
def recC3w : Record :=
  { date := "2026-01-05", hour := "01:00", pv := 10, gridLoadE := 2
    backupLoadE := 1, gridE := -1, batteryE := 0, avgSoc := 50 }

/-- Net grid and battery energies zero, raw grid-load energy negative. -/
def recC4 : Record :=
  { date := "2026-01-01", hour := "00:00", pv := 0, gridLoadE := -1
    backupLoadE := 0, gridE := 0, batteryE := 0, avgSoc := 0 }

/-- Importing and discharging record for the enrichment witness. -/
def recC4w : Record :=
  { date := "2026-01-01", hour := "12:00", pv := 2, gridLoadE := 4/5
    backupLoadE := 1/5, gridE := -1/2, batteryE := -3/10, avgSoc := 50 }

/-- One full day plus one partial (single-record) day of PV data. -/
def rowsC2a : List Record := mkPvDay "f1" 1 21 ++ mkPvDay "f2" 0 1

/-- Three full PV days, one partial zero-PV day, one weaker full day. -/
def rowsC2b : List Record :=
  mkPvDay "e1" (10/21) 21 ++ mkPvDay "e2" (10/21) 21 ++ mkPvDay "e3" (10/21) 21 ++
    mkPvDay "e4" 0 1 ++ mkPvDay "e5" (5/21) 21

/-- Nine full days: eight with daily load 7, one ("ax") with daily load
16, which is exactly twice the overall average daily load of 8. -/
def rowsC8 : List Record :=
  mkLoadDay "a1" (1/3) ++ mkLoadDay "a2" (1/3) ++ mkLoadDay "a3" (1/3) ++
    mkLoadDay "a4" (1/3) ++ mkLoadDay "a5" (1/3) ++ mkLoadDay "a6" (1/3) ++
    mkLoadDay "a7" (1/3) ++ mkLoadDay "a8" (1/3) ++ mkLoadDay "ax" (16/21)

/-- Nine full days: eight with daily load 10, one ("bx") with daily load
160/7 = twice the overall average daily load 80/7 > 8. -/
def rowsC8w : List Record :=
  mkLoadDay "b1" (10/21) ++ mkLoadDay "b2" (10/21) ++ mkLoadDay "b3" (10/21) ++
    mkLoadDay "b4" (10/21) ++ mkLoadDay "b5" (10/21) ++ mkLoadDay "b6" (10/21) ++
    mkLoadDay "b7" (10/21) ++ mkLoadDay "b8" (10/21) ++ mkLoadDay "bx" (160/147)

/-- Two full days with identical daily loads. -/
def rowsC8id : List Record := mkLoadDay "c1" (1/2) ++ mkLoadDay "c2" (1/2)

/-- Two full days with loads 1 and 30 (average 15.5, threshold 8). -/
def rowsC5 : List Record := mkLoadDay "v1" (1/21) ++ mkLoadDay "v2" (30/21)

/-! ## General lemmas -/

theorem mean_const (l : List ℚ) (c : ℚ) (hne : l ≠ []) (h : ∀ x ∈ l, x = c) :
    mean l = c := by
  have hs := List.sum_eq_card_nsmul l c h
  have hl : (l.length : ℚ) ≠ 0 := by
    have := List.length_pos.mpr hne
    exact_mod_cast Nat.pos_iff_ne_zero.mp this
  rw [mean, if_neg hne, hs, nsmul_eq_mul]
  field_simp

theorem filterMap_if_eq_map_filter {α β : Type} (l : List α) (p : α → Bool)
    (f : α → β) :
    (l.filterMap fun a => if p a then some (f a) else none) =
      (l.filter p).map f := by
  induction l with
  | nil => rfl
  | cons a l ih =>
    by_cases h : p a <;> simp [List.filterMap_cons, List.filter_cons, h, ih]

theorem dedup_filter {α : Type} [DecidableEq α] (q : α → Bool) (l : List α) :
    (l.filter q).dedup = l.dedup.filter q := by
  induction l with
  | nil => rfl
  | cons a l ih =>
    by_cases hq : q a
    · rw [List.filter_cons_of_pos hq]
      by_cases hm : a ∈ l
      · have hm' : a ∈ l.filter q := List.mem_filter.mpr ⟨hm, hq⟩
        rw [List.dedup_cons_of_mem hm', List.dedup_cons_of_mem hm, ih]
      · have hm' : a ∉ l.filter q := fun hc => hm (List.mem_filter.mp hc).1
        rw [List.dedup_cons_of_not_mem hm', List.dedup_cons_of_not_mem hm,
          List.filter_cons_of_pos hq, ih]
    · rw [List.filter_cons_of_neg hq]
      by_cases hm : a ∈ l
      · rw [List.dedup_cons_of_mem hm, ih]
      · rw [List.dedup_cons_of_not_mem hm, List.filter_cons_of_neg hq, ih]

/-- `fullDayLoads` lists exactly the full days, each with its total load. -/
theorem fullDayLoads_eq_map (rows : List Record) :
    fullDayLoads rows = (fullDays rows).map fun d => (d, dailyLoad rows d) := by
  rw [fullDayLoads, fullDays]
  have : ((daysOf rows).filterMap fun d =>
      if 20 < (dayRows rows d).length then some (d, dailyLoad rows d) else none) =
      ((daysOf rows).filterMap fun d =>
        if isFullDay rows d then some (d, dailyLoad rows d) else none) := by
    apply List.filterMap_congr
    intro d _
    by_cases h : 20 < (dayRows rows d).length
    · rw [if_pos h, if_pos (by simpa [isFullDay] using h)]
    · rw [if_neg h, if_neg (by simpa [isFullDay] using h)]
  rw [this, filterMap_if_eq_map_filter]

theorem fullDays_nodup (rows : List Record) : (fullDays rows).Nodup :=
  (List.nodup_dedup _).filter _

/-! ## Lemmas for C4 (sign splits) -/

theorem import_export_cases (x : ℚ) :
    (|min 0 x| = -x ∧ max 0 x = 0 ∧ x ≤ 0) ∨ (|min 0 x| = 0 ∧ max 0 x = x ∧ 0 ≤ x) := by
  rcases le_total x 0 with h | h
  · left
    refine ⟨?_, max_eq_left h, h⟩
    rw [min_eq_right h, abs_of_nonpos h]
  · right
    refine ⟨?_, max_eq_right h, h⟩
    rw [min_eq_left h, abs_of_nonneg le_rfl]

/-! ## Claim theorems -/

/-- C4 (amended): in every enriched record the import/export pair and the
charge/discharge pair are the sign split of the net grid and battery
energies — at most one member of each pair is non-zero, and exactly one is
non-zero whenever the net value is non-zero; `load_kwh ≥ 0` holds whenever
the raw grid-load and backup-load energies are non-negative. -/
theorem enrich_sign_split_amended (r : Record) :
    (gridImportKwh r = 0 ∨ gridExportKwh r = 0) ∧
    gridExportKwh r - gridImportKwh r = r.gridE ∧
    (batteryChargeKwh r = 0 ∨ batteryDischargeKwh r = 0) ∧
    batteryChargeKwh r - batteryDischargeKwh r = r.batteryE ∧
    (r.gridE ≠ 0 → ExactlyOneNonzero (gridImportKwh r) (gridExportKwh r)) ∧
    (r.batteryE ≠ 0 → ExactlyOneNonzero (batteryChargeKwh r) (batteryDischargeKwh r)) ∧
    (0 ≤ r.gridLoadE → 0 ≤ r.backupLoadE → 0 ≤ loadKwh r) := by
  rw [gridImportKwh, gridExportKwh, batteryChargeKwh, batteryDischargeKwh, loadKwh]
  refine ⟨?_, ?_, ?_, ?_, ?_, ?_, fun h1 h2 => add_nonneg h1 h2⟩
  · rcases import_export_cases r.gridE with ⟨_, h2, _⟩ | ⟨h1, _, _⟩
    · exact Or.inr h2
    · exact Or.inl h1
  · rcases import_export_cases r.gridE with ⟨h1, h2, _⟩ | ⟨h1, h2, _⟩ <;>
      rw [h1, h2] <;> ring
  · rcases import_export_cases r.batteryE with ⟨_, h2, _⟩ | ⟨h1, _, _⟩
    · exact Or.inl h2
    · exact Or.inr h1
  · rcases import_export_cases r.batteryE with ⟨h1, h2, _⟩ | ⟨h1, h2, _⟩ <;>
      rw [h1, h2] <;> ring
  · intro hne
    rcases import_export_cases r.gridE with ⟨h1, h2, h3⟩ | ⟨h1, h2, _⟩
    · exact Or.inl ⟨by rw [h1]; exact neg_ne_zero.mpr hne, h2⟩
    · exact Or.inr ⟨h1, by rw [h2]; exact hne⟩
  · intro hne
    rcases import_export_cases r.batteryE with ⟨h1, h2, h3⟩ | ⟨h1, h2, _⟩
    · exact Or.inr ⟨h2, by rw [h1]; exact neg_ne_zero.mpr hne⟩
    · exact Or.inl ⟨by rw [h2]; exact hne, h1⟩

/-- C4 witness: the amended statement instantiated at an importing,
discharging record with positive loads. -/
theorem enrich_sign_split_amended_witness :
    ExactlyOneNonzero (gridImportKwh recC4w) (gridExportKwh recC4w) ∧
    ExactlyOneNonzero (batteryChargeKwh recC4w) (batteryDischargeKwh recC4w) ∧
    0 ≤ loadKwh recC4w := by
  have h := enrich_sign_split_amended recC4w
  exact ⟨h.2.2.2.2.1 (by norm_num [recC4w]), h.2.2.2.2.2.1 (by norm_num [recC4w]),
    h.2.2.2.2.2.2 (by norm_num [recC4w]) (by norm_num [recC4w])⟩

/-- C4 counterexample: a record with zero net grid energy, zero net
battery energy and a negative raw grid-load field falsifies the claim as
stated — neither pair has exactly one non-zero member and the load is
negative. -/
theorem enrich_sign_split_counterexample :
    ¬ (ExactlyOneNonzero (gridImportKwh recC4) (gridExportKwh recC4) ∧
       ExactlyOneNonzero (batteryChargeKwh recC4) (batteryDischargeKwh recC4) ∧
       0 ≤ loadKwh recC4) := by
  intro h
  rcases h.1 with ⟨h1, _⟩ | ⟨_, h2⟩
  · exact h1 (by norm_num [gridImportKwh, recC4])
  · exact h2 (by norm_num [gridExportKwh, recC4])

/-- C3 (amended): for every month aggregate, `self_consumed` equals total
load minus grid import (both equal to the corresponding sums over the
month's records); `self_consumption_rate` is `self_consumed/total_pv×100`
and 0 when `total_pv` is not positive; `self_sufficiency` is
`(1 − import/load)×100` and `null` when `total_load` is not positive; and
`self_consumption_rate ≥ 0` whenever the month's grid import does not
exceed its total load. -/
theorem monthly_totals_amended (rows : List Record) (m : String)
    (hm : m ∈ monthsOf rows) :
    (computeMonthlyTotals (monthRows rows m)).selfConsumed =
      (computeMonthlyTotals (monthRows rows m)).totalLoad -
        (computeMonthlyTotals (monthRows rows m)).gridImport ∧
    (computeMonthlyTotals (monthRows rows m)).totalLoad =
      ((monthRows rows m).map loadKwh).sum ∧
    (computeMonthlyTotals (monthRows rows m)).gridImport =
      ((monthRows rows m).map gridImportKwh).sum ∧
    (computeMonthlyTotals (monthRows rows m)).totalPv =
      ((monthRows rows m).map (·.pv)).sum ∧
    (0 < (computeMonthlyTotals (monthRows rows m)).totalPv →
      (computeMonthlyTotals (monthRows rows m)).scRate =
        (computeMonthlyTotals (monthRows rows m)).selfConsumed /
          (computeMonthlyTotals (monthRows rows m)).totalPv * 100) ∧
    (¬ 0 < (computeMonthlyTotals (monthRows rows m)).totalPv →
      (computeMonthlyTotals (monthRows rows m)).scRate = 0) ∧
    (0 < (computeMonthlyTotals (monthRows rows m)).totalLoad →
      (computeMonthlyTotals (monthRows rows m)).selfSufficiency =
        some ((1 - (computeMonthlyTotals (monthRows rows m)).gridImport /
          (computeMonthlyTotals (monthRows rows m)).totalLoad) * 100)) ∧
    (¬ 0 < (computeMonthlyTotals (monthRows rows m)).totalLoad →
      (computeMonthlyTotals (monthRows rows m)).selfSufficiency = none) ∧
    ((computeMonthlyTotals (monthRows rows m)).gridImport ≤
        (computeMonthlyTotals (monthRows rows m)).totalLoad →
      0 ≤ (computeMonthlyTotals (monthRows rows m)).scRate) := by
  rw [computeMonthlyTotals]
  refine ⟨rfl, rfl, rfl, rfl, fun hp => by rw [if_pos hp],
    fun hp => by rw [if_neg hp], fun hl => by rw [if_pos hl],
    fun hl => by rw [if_neg hl], fun hle => ?_⟩
  by_cases hp : 0 < ((monthRows rows m).map (·.pv)).sum
  · rw [if_pos hp]
    have hsc : 0 ≤ ((monthRows rows m).map loadKwh).sum -
        ((monthRows rows m).map gridImportKwh).sum := sub_nonneg.mpr hle
    positivity
  · rw [if_neg hp]

/-- C3 witness: the amended statement instantiated at a one-record month
with PV 10, load 3 and grid import 1. -/
theorem monthly_totals_amended_witness :
    (computeMonthlyTotals (monthRows [recC3w] "2026-01")).selfConsumed =
      (computeMonthlyTotals (monthRows [recC3w] "2026-01")).totalLoad -
        (computeMonthlyTotals (monthRows [recC3w] "2026-01")).gridImport ∧
    0 ≤ (computeMonthlyTotals (monthRows [recC3w] "2026-01")).scRate := by
  have h := monthly_totals_amended [recC3w] "2026-01" (by decide)
  refine ⟨h.1, h.2.2.2.2.2.2.2.2 ?_⟩
  rw [h.2.1, h.2.2.1]
  have : monthRows [recC3w] "2026-01" = [recC3w] := by decide
  rw [this]
  norm_num [recC3w, loadKwh, gridImportKwh]

/-- C3 counterexample: a month whose single record imports 10 kWh with
zero load and positive PV has `self_consumption_rate = -200 < 0`, refuting
the claim's `self_consumption_rate ≥ 0`. -/
theorem monthly_totals_counterexample :
    "2026-01" ∈ monthsOf [recC3] ∧
    (computeMonthlyTotals (monthRows [recC3] "2026-01")).scRate < 0 := by
  refine ⟨by decide, ?_⟩
  have : monthRows [recC3] "2026-01" = [recC3] := by decide
  rw [this, computeMonthlyTotals]
  norm_num [recC3, loadKwh, gridImportKwh]

/-- C6: for a flat tariff with rate `R` and feed-in ratio 0, each month's
bill has `with_solar` exactly `I × R` where `I` is the month's grid
import, `feedin_credit` exactly 0, `without_solar` the total load billed
at `R`, and `net_savings = without_solar − with_solar + feedin_credit`. -/
theorem flat_tariff_bill_exact (mrows : List Record) (rate : ℚ) :
    (monthBill (Tariff.flat rate) 0 mrows).withSolar =
      (mrows.map gridImportKwh).sum * rate ∧
    (monthBill (Tariff.flat rate) 0 mrows).feedinCredit = 0 ∧
    (monthBill (Tariff.flat rate) 0 mrows).withoutSolar =
      (mrows.map loadKwh).sum * rate ∧
    (monthBill (Tariff.flat rate) 0 mrows).netSavings =
      (monthBill (Tariff.flat rate) 0 mrows).withoutSolar -
        (monthBill (Tariff.flat rate) 0 mrows).withSolar +
        (monthBill (Tariff.flat rate) 0 mrows).feedinCredit := by
  refine ⟨rfl, ?_, rfl, rfl⟩
  show (mrows.map gridExportKwh).sum * (Tariff.flat rate).importRateOf * 0 = 0
  rw [mul_zero]

/-- C9: battery health assumes a 6000-cycle lifetime: daily equivalent
cycles are `avg_discharge / estimated_usable` (0 when the usable estimate
is 0), `annual_cycles = daily × 365`, `cycles_used = annual × age`, and
`remaining_cycle_years = max(0, 6000 − cycles_used) / annual_cycles`,
reported as `null` (not an error) when `annual_cycles = 0`. -/
theorem battery_health_cycles (usable dis age : ℚ) :
    (0 < usable →
      (computeBatteryHealth usable dis age).dailyEquivCycles = dis / usable) ∧
    (usable = 0 → (computeBatteryHealth usable dis age).dailyEquivCycles = 0) ∧
    (computeBatteryHealth usable dis age).annualCycles =
      (computeBatteryHealth usable dis age).dailyEquivCycles * 365 ∧
    (computeBatteryHealth usable dis age).cyclesUsed =
      (computeBatteryHealth usable dis age).annualCycles * age ∧
    (0 < (computeBatteryHealth usable dis age).annualCycles →
      (computeBatteryHealth usable dis age).remainingCycleYears =
        some (max 0 (6000 - (computeBatteryHealth usable dis age).cyclesUsed) /
          (computeBatteryHealth usable dis age).annualCycles)) ∧
    ((computeBatteryHealth usable dis age).annualCycles = 0 →
      (computeBatteryHealth usable dis age).remainingCycleYears = none) := by
  simp only [computeBatteryHealth]
  refine ⟨fun hu => by rw [if_pos hu], fun hu => by rw [hu, if_neg (lt_irrefl 0)],
    by trivial, by trivial, fun ha => by rw [if_pos ha], fun ha => ?_⟩
  rw [if_neg (by rw [ha]; exact lt_irrefl 0)]

/-- C9 witness: the statement instantiated at usable 13 kWh, average
discharge 7.5 kWh, age 0.25 years, and at a zero usable estimate. -/
theorem battery_health_cycles_witness :
    (computeBatteryHealth 13 (15/2) (1/4)).dailyEquivCycles = (15/2) / 13 ∧
    (computeBatteryHealth 0 (15/2) (1/4)).dailyEquivCycles = 0 ∧
    (computeBatteryHealth 0 (15/2) (1/4)).remainingCycleYears = none := by
  refine ⟨(battery_health_cycles 13 (15/2) (1/4)).1 (by norm_num), ?_, ?_⟩
  · exact (battery_health_cycles 0 (15/2) (1/4)).2.1 rfl
  · apply (battery_health_cycles 0 (15/2) (1/4)).2.2.2.2.2
    have h0 := (battery_health_cycles 0 (15/2) (1/4)).2.1 rfl
    have h1 := (battery_health_cycles 0 (15/2) (1/4)).2.2.1
    rw [h1, h0, zero_mul]

/-! ## Lemmas for the EV-day classifier -/

theorem mem_fullDayLoads_iff (rows : List Record) (d : String) (l : ℚ) :
    (d, l) ∈ fullDayLoads rows ↔ d ∈ fullDays rows ∧ l = dailyLoad rows d := by
  rw [fullDayLoads_eq_map]
  constructor
  · intro h
    rcases List.mem_map.mp h with ⟨d', hd', heq⟩
    cases heq
    exact ⟨hd', rfl⟩
  · rintro ⟨hd, rfl⟩
    exact List.mem_map.mpr ⟨d, hd, rfl⟩

/-- Membership in the EV set is exactly the
`avg_load + max(8, 0.3·avg_load) < load` test. -/
theorem ev_mem_iff (rows : List Record) (d : String) (load : ℚ)
    (hmem : (d, load) ∈ fullDayLoads rows) :
    d ∈ (detectEvDays rows).1 ↔
      avgFullLoad rows + max 8 (avgFullLoad rows * (3/10)) < load := by
  have hne : fullDayLoads rows ≠ [] := List.ne_nil_of_mem hmem
  have hload : load = dailyLoad rows d := ((mem_fullDayLoads_iff rows d load).mp hmem).2
  rw [detectEvDays]
  simp only [if_neg hne, avgFullLoad] at *
  constructor
  · intro h
    rcases List.mem_map.mp h with ⟨p, hp, hfst⟩
    have hp' := List.mem_filter.mp hp
    have hcond := of_decide_eq_true hp'.2
    rcases (mem_fullDayLoads_iff rows p.1 p.2).mp (by
      have : (p.1, p.2) = p := rfl
      rw [this]; exact hp'.1) with ⟨_, hp2⟩
    rw [hfst] at hp2
    rw [hload, ← hp2]
    exact hcond
  · intro h
    refine List.mem_map.mpr ⟨(d, load), List.mem_filter.mpr ⟨hmem, ?_⟩, rfl⟩
    exact decide_eq_true h

/-- With every full-day load equal to a common value, the EV set is empty. -/
theorem ev_empty_of_const_loads (rows : List Record) (c : ℚ)
    (h : ∀ p ∈ fullDayLoads rows, p.2 = c) : (detectEvDays rows).1 = [] := by
  by_cases hne : fullDayLoads rows = []
  · rw [detectEvDays, if_pos hne]
  · rw [detectEvDays]
    simp only [if_neg hne]
    have havg : mean ((fullDayLoads rows).map Prod.snd) = c := by
      apply mean_const
      · simpa using hne
      · intro x hx
        rcases List.mem_map.mp hx with ⟨p, hp, rfl⟩
        exact h p hp
    rw [List.map_eq_nil_iff]
    rw [List.filter_eq_nil_iff]
    intro p hp
    rw [decide_eq_true_iff]
    rw [havg, h p hp]
    intro hlt
    have h8 : (0:ℚ) < max 8 (c * (3/10)) := lt_of_lt_of_le (by norm_num) (le_max_left _ _)
    linarith

/-! ## Evaluation lemmas for the synthetic inputs -/

theorem mem_mkLoadDay_date (d : String) (a : ℚ) (r : Record)
    (h : r ∈ mkLoadDay d a) : r.date = d := by
  rcases List.mem_map.mp h with ⟨i, _, rfl⟩
  rfl

theorem dayRows_append (xs ys : List Record) (k : String) :
    dayRows (xs ++ ys) k = dayRows xs k ++ dayRows ys k := by
  rw [dayRows, dayRows, dayRows, groupRows, groupRows, groupRows, List.filter_append]

theorem dayRows_mkLoadDay (d : String) (a : ℚ) (k : String) :
    dayRows (mkLoadDay d a) k = if d.take 10 = k then mkLoadDay d a else [] := by
  by_cases hk : d.take 10 = k
  · rw [if_pos hk, dayRows, groupRows, List.filter_eq_self]
    intro r hr
    rw [decide_eq_true_iff, rowDay, mem_mkLoadDay_date d a r hr, hk]
  · rw [if_neg hk, dayRows, groupRows, List.filter_eq_nil_iff]
    intro r hr
    rw [decide_eq_true_iff, rowDay, mem_mkLoadDay_date d a r hr]
    exact hk

theorem mkLoadDay_sum_load (d : String) (a : ℚ) :
    ((mkLoadDay d a).map loadKwh).sum = 21 * a := by
  rw [mkLoadDay, List.map_map]
  have : (loadKwh ∘ fun _ : ℕ =>
      ({ date := d, hour := "00:00", pv := 0, gridLoadE := a
         backupLoadE := 0, gridE := 0, batteryE := 0, avgSoc := 0 } : Record)) =
      fun _ : ℕ => a + 0 := rfl
  rw [this]
  simp only [List.map_const', List.length_range, List.sum_replicate, nsmul_eq_mul]
  ring

/-! ## Correctness of the deepest-monotonic-run scan -/

theorem extendRunF_ge (socs : List ℚ) :
    ∀ fuel j, j ≤ extendRunF socs fuel j := by
  intro fuel
  induction fuel with
  | zero => intro j; exact le_rfl
  | succ f ih =>
    intro j
    rw [extendRunF]
    by_cases h : j + 1 < socs.length ∧ socs.getD (j + 1) 0 ≤ socs.getD j 0
    · rw [if_pos h]; exact le_trans (Nat.le_succ j) (ih (j + 1))
    · rw [if_neg h]

theorem extendRunF_lt_length (socs : List ℚ) :
    ∀ fuel j, j < socs.length → extendRunF socs fuel j < socs.length := by
  intro fuel
  induction fuel with
  | zero => intro j h; exact h
  | succ f ih =>
    intro j h
    rw [extendRunF]
    by_cases hc : j + 1 < socs.length ∧ socs.getD (j + 1) 0 ≤ socs.getD j 0
    · rw [if_pos hc]; exact ih (j + 1) hc.1
    · rw [if_neg hc]; exact h

theorem extendRunF_steps (socs : List ℚ) :
    ∀ fuel j k, j ≤ k → k < extendRunF socs fuel j →
      socs.getD (k + 1) 0 ≤ socs.getD k 0 := by
  intro fuel
  induction fuel with
  | zero =>
    intro j k hjk hk
    exact absurd (lt_of_le_of_lt hjk hk) (lt_irrefl j)
  | succ f ih =>
    intro j k hjk hk
    rw [extendRunF] at hk
    by_cases hc : j + 1 < socs.length ∧ socs.getD (j + 1) 0 ≤ socs.getD j 0
    · rw [if_pos hc] at hk
      rcases eq_or_lt_of_le hjk with rfl | hlt
      · exact hc.2
      · exact ih (j + 1) k hlt hk
    · rw [if_neg hc] at hk
      exact absurd (lt_of_le_of_lt hjk hk) (lt_irrefl j)

theorem extendRunF_stop (socs : List ℚ) :
    ∀ fuel j, j < socs.length → socs.length ≤ fuel + j →
      ¬ (extendRunF socs fuel j + 1 < socs.length ∧
         socs.getD (extendRunF socs fuel j + 1) 0 ≤
           socs.getD (extendRunF socs fuel j) 0) := by
  intro fuel
  induction fuel with
  | zero =>
    intro j hj hlen
    intro _
    omega
  | succ f ih =>
    intro j hj hlen
    rw [extendRunF]
    by_cases hc : j + 1 < socs.length ∧ socs.getD (j + 1) 0 ≤ socs.getD j 0
    · rw [if_pos hc]
      exact ih (j + 1) hc.1 (by omega)
    · rw [if_neg hc]
      exact hc

theorem extendRun_ge (socs : List ℚ) (j : ℕ) : j ≤ extendRun socs j :=
  extendRunF_ge socs socs.length j

theorem extendRun_lt_length (socs : List ℚ) (j : ℕ) (h : j < socs.length) :
    extendRun socs j < socs.length :=
  extendRunF_lt_length socs socs.length j h

theorem extendRun_steps (socs : List ℚ) (j k : ℕ) (hjk : j ≤ k)
    (hk : k < extendRun socs j) : socs.getD (k + 1) 0 ≤ socs.getD k 0 :=
  extendRunF_steps socs socs.length j k hjk hk

theorem extendRun_stop (socs : List ℚ) (j : ℕ) (h : j < socs.length) :
    ¬ (extendRun socs j + 1 < socs.length ∧
       socs.getD (extendRun socs j + 1) 0 ≤ socs.getD (extendRun socs j) 0) :=
  extendRunF_stop socs socs.length j h (by omega)

theorem nonIncRun_mono (socs : List ℚ) {a b : ℕ} (h : NonIncRun socs a b)
    {k k' : ℕ} (hak : a ≤ k) (hkk : k ≤ k') :
    k' ≤ b → socs.getD k' 0 ≤ socs.getD k 0 := by
  induction k', hkk using Nat.le_induction with
  | base => intro _; exact le_rfl
  | succ m hm ihm =>
    intro hmb
    exact le_trans (h.2.2 m (le_trans hak hm) (by omega)) (ihm (by omega))

theorem nonIncRun_drop_nonneg (socs : List ℚ) {a b : ℕ}
    (h : NonIncRun socs a b) : 0 ≤ runDrop socs a b :=
  sub_nonneg.mpr (nonIncRun_mono socs h le_rfl h.1 le_rfl)

theorem nonIncRun_restrict (socs : List ℚ) {a b a' b' : ℕ}
    (h : NonIncRun socs a b) (ha : a ≤ a') (hb : b' ≤ b) (hab : a' ≤ b') :
    NonIncRun socs a' b' :=
  ⟨hab, lt_of_le_of_lt hb h.2.1,
    fun k hk hk' => h.2.2 k (le_trans ha hk) (lt_of_lt_of_le hk' hb)⟩

/-- Invariant proof for the outer loop of the deepest-run scan: starting
from a state whose best run is achieved and dominates every run ending at
or before the cursor, and such that no run strictly crosses the cursor
with a higher start, the final best drop is achieved by a monotonic
non-increasing run and dominates the drop of every such run. -/
theorem scanRunsF_spec (socs : List ℚ) :
    ∀ fuel i bs be bd,
      socs.length ≤ fuel + i + 1 →
      NonIncRun socs bs be →
      bd = runDrop socs bs be →
      (∀ a b, NonIncRun socs a b → b ≤ i → runDrop socs a b ≤ bd) →
      (∀ a b, NonIncRun socs a b → a < i → i < b →
        socs.getD a 0 ≤ socs.getD i 0) →
      NonIncRun socs (scanRunsF socs fuel i bs be bd).1
          (scanRunsF socs fuel i bs be bd).2.1 ∧
      (scanRunsF socs fuel i bs be bd).2.2 =
        runDrop socs (scanRunsF socs fuel i bs be bd).1
          (scanRunsF socs fuel i bs be bd).2.1 ∧
      (∀ a b, NonIncRun socs a b →
        runDrop socs a b ≤ (scanRunsF socs fuel i bs be bd).2.2) := by
  intro fuel
  induction fuel with
  | zero =>
    intro i bs be bd hfuel hbs hbd hB _hC
    refine ⟨hbs, hbd, fun a b hab => hB a b hab ?_⟩
    have := hab.2.1
    omega
  | succ f ih =>
    intro i bs be bd hfuel hbs hbd hB hC
    simp only [scanRunsF]
    by_cases h1 : i + 1 < socs.length
    · rw [if_pos h1]
      by_cases h2 : socs.getD (i + 1) 0 < socs.getD i 0
      · rw [if_pos h2]
        have hij : i + 1 ≤ extendRun socs (i + 1) := extendRun_ge socs (i + 1)
        have hjlen : extendRun socs (i + 1) < socs.length :=
          extendRun_lt_length socs (i + 1) h1
        have hrunij : NonIncRun socs i (extendRun socs (i + 1)) := by
          refine ⟨by omega, hjlen, fun k hik hkj => ?_⟩
          rcases eq_or_lt_of_le hik with rfl | hik'
          · exact le_of_lt h2
          · exact extendRun_steps socs (i + 1) k (by omega) hkj
        have hstop := extendRun_stop socs (i + 1) h1
        have hCj : ∀ a b, NonIncRun socs a b → a < extendRun socs (i + 1) →
            extendRun socs (i + 1) < b →
            socs.getD a 0 ≤ socs.getD (extendRun socs (i + 1)) 0 := by
          intro a b hab haj hjb
          have hblen := hab.2.1
          exact absurd ⟨by omega, hab.2.2 (extendRun socs (i + 1)) (by omega) hjb⟩ hstop
        have hAB : ∀ a b, NonIncRun socs a b → b ≤ extendRun socs (i + 1) →
            runDrop socs a b ≤ bd ∨
              runDrop socs a b ≤ runDrop socs i (extendRun socs (i + 1)) := by
          intro a b hab hbj
          by_cases hbi : b ≤ i
          · exact Or.inl (hB a b hab hbi)
          · right
            have hib : i < b := not_le.mp hbi
            have hjb : socs.getD (extendRun socs (i + 1)) 0 ≤ socs.getD b 0 :=
              nonIncRun_mono socs hrunij (le_of_lt hib) hbj le_rfl
            have hsa : socs.getD a 0 ≤ socs.getD i 0 := by
              by_cases hai : a < i
              · exact hC a b hab hai hib
              · exact nonIncRun_mono socs hrunij le_rfl (not_lt.mp hai)
                  (le_trans hab.1 hbj)
            exact sub_le_sub hsa hjb
        by_cases h3 : bd < socs.getD i 0 - socs.getD (extendRun socs (i + 1)) 0
        · rw [if_pos h3]
          refine ih (extendRun socs (i + 1)) i (extendRun socs (i + 1)) _
            (by omega) hrunij rfl ?_ hCj
          intro a b hab hbj
          rcases hAB a b hab hbj with hle | hle
          · exact le_trans hle (le_of_lt h3)
          · exact hle
        · rw [if_neg h3]
          refine ih (extendRun socs (i + 1)) bs be bd (by omega) hbs hbd ?_ hCj
          intro a b hab hbj
          rcases hAB a b hab hbj with hle | hle
          · exact hle
          · exact le_trans hle (not_lt.mp h3)
      · rw [if_neg h2]
        refine ih (i + 1) bs be bd (by omega) hbs hbd ?_ ?_
        · intro a b hab hbi1
          by_cases hbi : b ≤ i
          · exact hB a b hab hbi
          · have hbeq : b = i + 1 := by omega
            subst hbeq
            by_cases hai : a = i + 1
            · subst hai
              rw [runDrop, sub_self, hbd]
              exact nonIncRun_drop_nonneg socs hbs
            · have hale : a ≤ i := by
                have := hab.1
                omega
              have hstep : socs.getD (i + 1) 0 ≤ socs.getD i 0 :=
                hab.2.2 i hale (by omega)
              have heq : socs.getD (i + 1) 0 = socs.getD i 0 :=
                le_antisymm hstep (not_lt.mp h2)
              have hseg : NonIncRun socs a i :=
                nonIncRun_restrict socs hab le_rfl (by omega) hale
              have := hB a i hseg le_rfl
              rw [runDrop, heq]
              exact this
        · intro a b hab hai1 hi1b
          have hale : a ≤ i := by omega
          have hstep : socs.getD (i + 1) 0 ≤ socs.getD i 0 :=
            hab.2.2 i hale (by omega)
          have heq : socs.getD (i + 1) 0 = socs.getD i 0 :=
            le_antisymm hstep (not_lt.mp h2)
          rw [heq]
          by_cases hai : a < i
          · exact hC a b hab hai (by omega)
          · have : a = i := by omega
            subst this
            exact le_rfl
    · rw [if_neg h1]
      refine ⟨hbs, hbd, fun a b hab => hB a b hab ?_⟩
      have := hab.2.1
      omega

/-- The scan's best drop dominates the drop of every monotonic
non-increasing run. -/
theorem bestRun_max (socs : List ℚ) (a b : ℕ) (h : NonIncRun socs a b) :
    runDrop socs a b ≤ (bestRun socs).2.2 := by
  rcases eq_or_ne socs [] with rfl | hne
  · have := h.2.1
    simp at this
  · have h0 : NonIncRun socs 0 0 :=
      ⟨le_rfl, List.length_pos.mpr hne, by omega⟩
    have hspec := scanRunsF_spec socs socs.length 0 0 0 0 (by omega) h0
      (by rw [runDrop, sub_self]) ?_ ?_
    · exact hspec.2.2 a b h
    · intro a' b' hab hb0
      have ha0 : a' = 0 := by
        have := hab.1
        omega
      subst ha0
      have hb0' : b' = 0 := by omega
      subst hb0'
      rw [runDrop, sub_self]
    · intro a' b' _ ha _
      omega

/-- The scan's best drop is achieved: `(best_start, best_end)` is a
monotonic non-increasing run whose drop is `best_drop`. -/
theorem bestRun_achieved (socs : List ℚ) (hne : socs ≠ []) :
    NonIncRun socs (bestRun socs).1 (bestRun socs).2.1 ∧
    (bestRun socs).2.2 = runDrop socs (bestRun socs).1 (bestRun socs).2.1 := by
  have h0 : NonIncRun socs 0 0 :=
    ⟨le_rfl, List.length_pos.mpr hne, by omega⟩
  have hspec := scanRunsF_spec socs socs.length 0 0 0 0 (by omega) h0
    (by rw [runDrop, sub_self]) ?_ ?_
  · exact ⟨hspec.1, hspec.2.1⟩
  · intro a' b' hab hb0
    have ha0 : a' = 0 := by
      have := hab.1
      omega
    subst ha0
    have hb0' : b' = 0 := by omega
    subst hb0'
    rw [runDrop, sub_self]
  · intro a' b' _ ha _
    omega

/-! ## Concrete battery-scan evaluations -/

theorem socVals_rowsC1a : socVals (dayRows rowsC1a "p1") = [80, 40] := rfl

theorem bestRun_ramp2 : bestRun [(80 : ℚ), 40] = (0, 1, 40) := by
  norm_num [bestRun, scanRunsF, extendRun, extendRunF]

theorem windowDischarge_rowsC1a :
    windowDischarge (dayRows rowsC1a "p1") 0 1 = 4 := by
  rw [windowDischarge,
    show dischargeVals (dayRows rowsC1a "p1") = [|min (0:ℚ) (-4)|, |min (0:ℚ) 0|] from rfl]
  norm_num

theorem dayEst_rowsC1a : dayUsableEstimate (dayRows rowsC1a "p1") = some 10 := by
  simp only [dayUsableEstimate, socVals_rowsC1a, bestRun_ramp2]
  rw [if_pos (by norm_num), show windowDischarge (dayRows rowsC1a "p1") (0,1,(40:ℚ)).1
    (0,1,(40:ℚ)).2.1 = 4 from windowDischarge_rowsC1a]
  rw [if_pos (by norm_num)]
  norm_num

theorem usableEstimates_rowsC1a : usableEstimates rowsC1a = [10] := by
  rw [usableEstimates, show daysOf rowsC1a = ["p1"] from by decide]
  simp only [List.filterMap_cons, List.filterMap_nil, dayEst_rowsC1a]

theorem estUsable_rowsC1a : estimatedUsable rowsC1a 10 = 10 := by
  rw [estimatedUsable, usableEstimates_rowsC1a]
  simp [median, insSortBy, orderedInsertBy]

theorem claimEst_rowsC1a : claimEstimatedUsable rowsC1a 10 = 9 := by
  rw [claimEstimatedUsable, if_pos (show claimUsableEstimates rowsC1a = [] from rfl)]
  norm_num

theorem socVals_rowsC1b : socVals (dayRows rowsC1b "s1") =
    [80, 80, 80, 80, 80, 80, 80, 80, 80, 80, 80, 80, 80, 80, 80, 80, 80, 80, 80, 80, 40] :=
  rfl

theorem bd_rowsC1b : 30 < (bestRun (socVals (dayRows rowsC1b "s1"))).2.2 := by
  have hrun : NonIncRun (socVals (dayRows rowsC1b "s1")) 0 20 := by
    refine ⟨by omega, by decide, fun k hk0 hk20 => ?_⟩
    rw [socVals_rowsC1b]
    interval_cases k <;> decide
  have h := bestRun_max (socVals (dayRows rowsC1b "s1")) 0 20 hrun
  rw [show runDrop (socVals (dayRows rowsC1b "s1")) 0 20 = 40 from by
    rw [runDrop, socVals_rowsC1b]; norm_num] at h
  linarith

theorem windowDischarge_rowsC1b (bs be : ℕ) :
    windowDischarge (dayRows rowsC1b "s1") bs be = 0 := by
  rw [windowDischarge,
    show dischargeVals (dayRows rowsC1b "s1") = List.replicate 21 |min (0:ℚ) 0| from rfl,
    List.drop_replicate, List.take_replicate, List.sum_replicate]
  simp

theorem dayEst_rowsC1b : dayUsableEstimate (dayRows rowsC1b "s1") = none := by
  simp only [dayUsableEstimate]
  by_cases h : 30 < (bestRun (socVals (dayRows rowsC1b "s1"))).2.2
  · rw [if_pos h, windowDischarge_rowsC1b,
      if_neg (fun hc => absurd hc.2 (lt_irrefl 0))]
  · rw [if_neg h]

theorem claimDay_rowsC1b : claimDayEstimate (dayRows rowsC1b "s1") = some 0 := by
  simp only [claimDayEstimate]
  rw [if_pos bd_rowsC1b, windowDischarge_rowsC1b, zero_div]

theorem estUsable_rowsC1b : estimatedUsable rowsC1b 10 = 9 := by
  have hlist : usableEstimates rowsC1b = [] := by
    rw [usableEstimates, show daysOf rowsC1b = ["s1"] from by decide]
    simp only [List.filterMap_cons, List.filterMap_nil, dayEst_rowsC1b]
  rw [estimatedUsable, if_pos hlist]
  norm_num

theorem claimEst_rowsC1b : claimEstimatedUsable rowsC1b 10 = 0 := by
  have hlist : claimUsableEstimates rowsC1b = [0] := by
    rw [claimUsableEstimates, show fullDays rowsC1b = ["s1"] from by decide]
    simp only [List.filterMap_cons, List.filterMap_nil, claimDay_rowsC1b]
  rw [claimEstimatedUsable, hlist]
  simp [median, insSortBy, orderedInsertBy]

/-- C1 (amended): for each grouped day — regardless of its record count —
the scan finds the deepest contiguous monotonic non-increasing run of the
hour-ordered average-SOC sequence (its best drop dominates the drop of
every such run and is itself achieved by one); if that drop exceeds 30
points *and* the battery-discharge energy summed over the run's window is
positive, the day's estimate is that discharge divided by `drop/100`,
otherwise the day contributes no estimate; the overall usable capacity is
the median of the collected estimates, and `nominal × 0.9` when no day
contributes one. -/
theorem battery_usable_amended (rows : List Record) (nominal : ℚ) (d : String)
    (hd : d ∈ daysOf rows) :
    (∀ a b, NonIncRun (socVals (dayRows rows d)) a b →
      runDrop (socVals (dayRows rows d)) a b ≤
        (bestRun (socVals (dayRows rows d))).2.2) ∧
    (socVals (dayRows rows d) ≠ [] →
      NonIncRun (socVals (dayRows rows d)) (bestRun (socVals (dayRows rows d))).1
          (bestRun (socVals (dayRows rows d))).2.1 ∧
      (bestRun (socVals (dayRows rows d))).2.2 =
        runDrop (socVals (dayRows rows d)) (bestRun (socVals (dayRows rows d))).1
          (bestRun (socVals (dayRows rows d))).2.1) ∧
    (30 < (bestRun (socVals (dayRows rows d))).2.2 →
      0 < windowDischarge (dayRows rows d) (bestRun (socVals (dayRows rows d))).1
          (bestRun (socVals (dayRows rows d))).2.1 →
      dayUsableEstimate (dayRows rows d) =
        some (windowDischarge (dayRows rows d) (bestRun (socVals (dayRows rows d))).1
            (bestRun (socVals (dayRows rows d))).2.1 /
          ((bestRun (socVals (dayRows rows d))).2.2 / 100))) ∧
    (¬ (30 < (bestRun (socVals (dayRows rows d))).2.2 ∧
        0 < windowDischarge (dayRows rows d) (bestRun (socVals (dayRows rows d))).1
          (bestRun (socVals (dayRows rows d))).2.1) →
      dayUsableEstimate (dayRows rows d) = none) ∧
    (usableEstimates rows =
      (daysOf rows).filterMap fun d' => dayUsableEstimate (dayRows rows d')) ∧
    (usableEstimates rows ≠ [] →
      estimatedUsable rows nominal = median (usableEstimates rows)) ∧
    (usableEstimates rows = [] →
      estimatedUsable rows nominal = nominal * (9/10)) := by
  refine ⟨fun a b h => bestRun_max _ a b h, fun hne => bestRun_achieved _ hne,
    fun h30 hw => ?_, fun hn => ?_, rfl,
    fun hne => by rw [estimatedUsable, if_neg hne],
    fun he => by rw [estimatedUsable, if_pos he]⟩
  · simp only [dayUsableEstimate]
    rw [if_pos h30, if_pos ⟨lt_trans (by norm_num) h30, hw⟩]
  · simp only [dayUsableEstimate]
    by_cases h30 : 30 < (bestRun (socVals (dayRows rows d))).2.2
    · rw [if_pos h30, if_neg (fun hc => hn ⟨h30, hc.2⟩)]
    · rw [if_neg h30]

/-- C1 witness: at the two-record day of `rowsC1a` the drop is 40 > 30,
the window discharge is 4 > 0, and the estimate/median pipeline fires. -/
theorem battery_usable_amended_witness :
    (dayUsableEstimate (dayRows rowsC1a "p1")).isSome = true ∧
    estimatedUsable rowsC1a 10 = median (usableEstimates rowsC1a) := by
  have h := battery_usable_amended rowsC1a 10 "p1" (by decide)
  constructor
  · rw [h.2.2.1 (by rw [socVals_rowsC1a, bestRun_ramp2]; norm_num)
      (by rw [socVals_rowsC1a, bestRun_ramp2]
          show (0:ℚ) < windowDischarge (dayRows rowsC1a "p1") 0 1
          rw [windowDischarge_rowsC1a]; norm_num)]
    rfl
  · exact h.2.2.2.2.2.1 (by rw [usableEstimates_rowsC1a]; simp)

/-- C1 counterexample: the claim as stated (estimates only from full days,
one estimate for every day whose best drop exceeds 30 points) disagrees
with the code on two concrete inputs: a two-record partial day with a
40-point drop and 4 kWh discharge, where the code estimates 10 kWh but the
claim prescribes the fallback 9 kWh; and a 21-record full day with a
40-point drop and zero discharge, where the code falls back to 9 kWh but
the claim prescribes a 0 kWh estimate. -/
theorem battery_usable_counterexample :
    estimatedUsable rowsC1a 10 = 10 ∧ claimEstimatedUsable rowsC1a 10 = 9 ∧
    estimatedUsable rowsC1b 10 = 9 ∧ claimEstimatedUsable rowsC1b 10 = 0 :=
  ⟨estUsable_rowsC1a, claimEst_rowsC1a, estUsable_rowsC1b, claimEst_rowsC1b⟩

/-! ## Concrete EV-classifier evaluations -/

theorem fullDayLoads_rowsC5 : fullDayLoads rowsC5 = [("v1", 1), ("v2", 30)] := by
  have h : fullDayLoads rowsC5 =
      [("v1", dailyLoad rowsC5 "v1"), ("v2", dailyLoad rowsC5 "v2")] := rfl
  rw [h,
    show dailyLoad rowsC5 "v1" = 21 * (1/21) from by
      rw [dailyLoad, show dayRows rowsC5 "v1" = mkLoadDay "v1" (1/21) from rfl,
        mkLoadDay_sum_load],
    show dailyLoad rowsC5 "v2" = 21 * (30/21) from by
      rw [dailyLoad, show dayRows rowsC5 "v2" = mkLoadDay "v2" (30/21) from rfl,
        mkLoadDay_sum_load]]
  norm_num

theorem avgFullLoad_rowsC5 : avgFullLoad rowsC5 = 31/2 := by
  rw [avgFullLoad, fullDayLoads_rowsC5, mean, if_neg (by simp)]
  norm_num

theorem fullDayLoads_rowsC8 : fullDayLoads rowsC8 =
    [("a1", 7), ("a2", 7), ("a3", 7), ("a4", 7), ("a5", 7), ("a6", 7),
     ("a7", 7), ("a8", 7), ("ax", 16)] := by
  have h : fullDayLoads rowsC8 =
      [("a1", dailyLoad rowsC8 "a1"), ("a2", dailyLoad rowsC8 "a2"),
       ("a3", dailyLoad rowsC8 "a3"), ("a4", dailyLoad rowsC8 "a4"),
       ("a5", dailyLoad rowsC8 "a5"), ("a6", dailyLoad rowsC8 "a6"),
       ("a7", dailyLoad rowsC8 "a7"), ("a8", dailyLoad rowsC8 "a8"),
       ("ax", dailyLoad rowsC8 "ax")] := rfl
  rw [h,
    show dailyLoad rowsC8 "a1" = 21 * (1/3) from by
      rw [dailyLoad, show dayRows rowsC8 "a1" = mkLoadDay "a1" (1/3) from rfl,
        mkLoadDay_sum_load],
    show dailyLoad rowsC8 "a2" = 21 * (1/3) from by
      rw [dailyLoad, show dayRows rowsC8 "a2" = mkLoadDay "a2" (1/3) from rfl,
        mkLoadDay_sum_load],
    show dailyLoad rowsC8 "a3" = 21 * (1/3) from by
      rw [dailyLoad, show dayRows rowsC8 "a3" = mkLoadDay "a3" (1/3) from rfl,
        mkLoadDay_sum_load],
    show dailyLoad rowsC8 "a4" = 21 * (1/3) from by
      rw [dailyLoad, show dayRows rowsC8 "a4" = mkLoadDay "a4" (1/3) from rfl,
        mkLoadDay_sum_load],
    show dailyLoad rowsC8 "a5" = 21 * (1/3) from by
      rw [dailyLoad, show dayRows rowsC8 "a5" = mkLoadDay "a5" (1/3) from rfl,
        mkLoadDay_sum_load],
    show dailyLoad rowsC8 "a6" = 21 * (1/3) from by
      rw [dailyLoad, show dayRows rowsC8 "a6" = mkLoadDay "a6" (1/3) from rfl,
        mkLoadDay_sum_load],
    show dailyLoad rowsC8 "a7" = 21 * (1/3) from by
      rw [dailyLoad, show dayRows rowsC8 "a7" = mkLoadDay "a7" (1/3) from rfl,
        mkLoadDay_sum_load],
    show dailyLoad rowsC8 "a8" = 21 * (1/3) from by
      rw [dailyLoad, show dayRows rowsC8 "a8" = mkLoadDay "a8" (1/3) from rfl,
        mkLoadDay_sum_load],
    show dailyLoad rowsC8 "ax" = 21 * (16/21) from by
      rw [dailyLoad, show dayRows rowsC8 "ax" = mkLoadDay "ax" (16/21) from rfl,
        mkLoadDay_sum_load]]
  norm_num

theorem avgFullLoad_rowsC8 : avgFullLoad rowsC8 = 8 := by
  rw [avgFullLoad, fullDayLoads_rowsC8, mean, if_neg (by simp)]
  norm_num [List.sum_cons, List.sum_nil]

theorem fullDayLoads_rowsC8w : fullDayLoads rowsC8w =
    [("b1", 10), ("b2", 10), ("b3", 10), ("b4", 10), ("b5", 10), ("b6", 10),
     ("b7", 10), ("b8", 10), ("bx", 160/7)] := by
  have h : fullDayLoads rowsC8w =
      [("b1", dailyLoad rowsC8w "b1"), ("b2", dailyLoad rowsC8w "b2"),
       ("b3", dailyLoad rowsC8w "b3"), ("b4", dailyLoad rowsC8w "b4"),
       ("b5", dailyLoad rowsC8w "b5"), ("b6", dailyLoad rowsC8w "b6"),
       ("b7", dailyLoad rowsC8w "b7"), ("b8", dailyLoad rowsC8w "b8"),
       ("bx", dailyLoad rowsC8w "bx")] := rfl
  rw [h,
    show dailyLoad rowsC8w "b1" = 21 * (10/21) from by
      rw [dailyLoad, show dayRows rowsC8w "b1" = mkLoadDay "b1" (10/21) from rfl,
        mkLoadDay_sum_load],
    show dailyLoad rowsC8w "b2" = 21 * (10/21) from by
      rw [dailyLoad, show dayRows rowsC8w "b2" = mkLoadDay "b2" (10/21) from rfl,
        mkLoadDay_sum_load],
    show dailyLoad rowsC8w "b3" = 21 * (10/21) from by
      rw [dailyLoad, show dayRows rowsC8w "b3" = mkLoadDay "b3" (10/21) from rfl,
        mkLoadDay_sum_load],
    show dailyLoad rowsC8w "b4" = 21 * (10/21) from by
      rw [dailyLoad, show dayRows rowsC8w "b4" = mkLoadDay "b4" (10/21) from rfl,
        mkLoadDay_sum_load],
    show dailyLoad rowsC8w "b5" = 21 * (10/21) from by
      rw [dailyLoad, show dayRows rowsC8w "b5" = mkLoadDay "b5" (10/21) from rfl,
        mkLoadDay_sum_load],
    show dailyLoad rowsC8w "b6" = 21 * (10/21) from by
      rw [dailyLoad, show dayRows rowsC8w "b6" = mkLoadDay "b6" (10/21) from rfl,
        mkLoadDay_sum_load],
    show dailyLoad rowsC8w "b7" = 21 * (10/21) from by
      rw [dailyLoad, show dayRows rowsC8w "b7" = mkLoadDay "b7" (10/21) from rfl,
        mkLoadDay_sum_load],
    show dailyLoad rowsC8w "b8" = 21 * (10/21) from by
      rw [dailyLoad, show dayRows rowsC8w "b8" = mkLoadDay "b8" (10/21) from rfl,
        mkLoadDay_sum_load],
    show dailyLoad rowsC8w "bx" = 21 * (160/147) from by
      rw [dailyLoad, show dayRows rowsC8w "bx" = mkLoadDay "bx" (160/147) from rfl,
        mkLoadDay_sum_load]]
  norm_num

theorem avgFullLoad_rowsC8w : avgFullLoad rowsC8w = 80/7 := by
  rw [avgFullLoad, fullDayLoads_rowsC8w, mean, if_neg (by simp)]
  norm_num [List.sum_cons, List.sum_nil]

theorem fullDayLoads_rowsC8id : fullDayLoads rowsC8id = [("c1", 21/2), ("c2", 21/2)] := by
  have h : fullDayLoads rowsC8id =
      [("c1", dailyLoad rowsC8id "c1"), ("c2", dailyLoad rowsC8id "c2")] := rfl
  rw [h,
    show dailyLoad rowsC8id "c1" = 21 * (1/2) from by
      rw [dailyLoad, show dayRows rowsC8id "c1" = mkLoadDay "c1" (1/2) from rfl,
        mkLoadDay_sum_load],
    show dailyLoad rowsC8id "c2" = 21 * (1/2) from by
      rw [dailyLoad, show dayRows rowsC8id "c2" = mkLoadDay "c2" (1/2) from rfl,
        mkLoadDay_sum_load]]
  norm_num

/-- C5 (amended): a full day is EV iff its load exceeds
`avg_load + max(8, 0.3·avg_load)`; with EV detection disabled the EV set
is empty and the non-EV set is exactly the full days; and with zero full
days the classifier returns two empty sets and an *empty* summary (no
counts), without dividing by zero. -/
theorem ev_classifier_edges_amended (rows : List Record) (d : String) (load : ℚ) :
    ((d, load) ∈ fullDayLoads rows →
      (d ∈ (detectEvDays rows).1 ↔
        avgFullLoad rows + max 8 (avgFullLoad rows * (3/10)) < load)) ∧
    ((evPartitionDisabled rows).1 = [] ∧
      ∀ d', d' ∈ (evPartitionDisabled rows).2 ↔ d' ∈ fullDays rows) ∧
    (fullDayLoads rows = [] → detectEvDays rows = ([], [], none)) := by
  refine ⟨fun hmem => ev_mem_iff rows d load hmem, ⟨rfl, fun d' => Iff.rfl⟩,
    fun h => ?_⟩
  rw [detectEvDays]
  simp only [h, if_pos]

/-- C5 witness: on two full days with loads 1 and 30, the day with load 30
exceeds `15.5 + max(8, 4.65)` and is classified EV; a five-record
(partial-only) input yields the empty triple. -/
theorem ev_classifier_edges_amended_witness :
    "v2" ∈ (detectEvDays rowsC5).1 ∧
    detectEvDays (mkPvDay "z1" 0 5) = ([], [], none) := by
  constructor
  · apply ((ev_classifier_edges_amended rowsC5 "v2" 30).1 (by
      rw [fullDayLoads_rowsC5]
      exact List.mem_cons_of_mem _ (List.mem_cons_self _ _))).mpr
    rw [avgFullLoad_rowsC5, max_eq_left (by norm_num)]
    norm_num
  · exact (ev_classifier_edges_amended (mkPvDay "z1" 0 5) "z1" 0).2.2 rfl

/-- C5 counterexample: an input with records but zero full days makes the
classifier return an *empty* summary (`none`), not a summary reporting
zero counts as the claim states. -/
theorem ev_classifier_empty_summary_counterexample :
    (detectEvDays (mkPvDay "z1" 0 5)).2.2 = none := rfl

/-- C8 (amended): with all full-day loads identical no day is EV; and a
full day whose load is twice the overall average daily load is classified
EV among at least nine full days *provided the average exceeds 8 kWh* (so
that the 8 kWh threshold floor is not binding). -/
theorem ev_scenarios_amended (rows : List Record) :
    (∀ c, (∀ p ∈ fullDayLoads rows, p.2 = c) → (detectEvDays rows).1 = []) ∧
    (∀ d load, 9 ≤ (fullDayLoads rows).length →
      (d, load) ∈ fullDayLoads rows → 8 < avgFullLoad rows →
      load = 2 * avgFullLoad rows → d ∈ (detectEvDays rows).1) := by
  refine ⟨fun c h => ev_empty_of_const_loads rows c h, ?_⟩
  intro d load _h9 hmem havg hl
  apply (ev_mem_iff rows d load hmem).mpr
  rw [hl]
  have h0 : (0:ℚ) < avgFullLoad rows := lt_trans (by norm_num) havg
  have hmax : max 8 (avgFullLoad rows * (3/10)) < avgFullLoad rows :=
    max_lt havg (by linarith)
  linarith

/-- C8 witness: two identical full days produce no EV day; and among nine
full days with average 80/7 > 8, the day loaded at 160/7 = 2 × 80/7 is
classified EV. -/
theorem ev_scenarios_amended_witness :
    (detectEvDays rowsC8id).1 = [] ∧ "bx" ∈ (detectEvDays rowsC8w).1 := by
  constructor
  · apply (ev_scenarios_amended rowsC8id).1 (21/2)
    intro p hp
    rw [fullDayLoads_rowsC8id] at hp
    rcases List.mem_cons.mp hp with rfl | hp2
    · rfl
    rcases List.mem_cons.mp hp2 with rfl | hp3
    · rfl
    · exact absurd hp3 (List.not_mem_nil p)
  · apply (ev_scenarios_amended rowsC8w).2 "bx" (160/7)
    · rw [fullDayLoads_rowsC8w]
      simp
    · rw [fullDayLoads_rowsC8w]
      exact List.mem_cons_of_mem _ (List.mem_cons_of_mem _ (List.mem_cons_of_mem _
        (List.mem_cons_of_mem _ (List.mem_cons_of_mem _ (List.mem_cons_of_mem _
          (List.mem_cons_of_mem _ (List.mem_cons_of_mem _ (List.mem_cons_self _ _))))))))
    · rw [avgFullLoad_rowsC8w]
      norm_num
    · rw [avgFullLoad_rowsC8w]
      norm_num

/-- C8 counterexample: nine full days with loads 7,…,7,16 have average
exactly 8, so the day loaded at 16 = 2 × 8 satisfies all of the claim's
premises yet is *not* classified EV (16 is not greater than
8 + max(8, 2.4) = 16). -/
theorem ev_double_load_counterexample :
    9 ≤ (fullDayLoads rowsC8).length ∧
    ("ax", (16:ℚ)) ∈ fullDayLoads rowsC8 ∧
    (16:ℚ) = 2 * avgFullLoad rowsC8 ∧
    "ax" ∉ (detectEvDays rowsC8).1 := by
  refine ⟨by rw [fullDayLoads_rowsC8]; simp, ?_, ?_, ?_⟩
  · rw [fullDayLoads_rowsC8]
    exact List.mem_cons_of_mem _ (List.mem_cons_of_mem _ (List.mem_cons_of_mem _
      (List.mem_cons_of_mem _ (List.mem_cons_of_mem _ (List.mem_cons_of_mem _
        (List.mem_cons_of_mem _ (List.mem_cons_of_mem _ (List.mem_cons_self _ _))))))))
  · rw [avgFullLoad_rowsC8]
    norm_num
  · intro hmem
    have h := (ev_mem_iff rowsC8 "ax" 16 (by
      rw [fullDayLoads_rowsC8]
      exact List.mem_cons_of_mem _ (List.mem_cons_of_mem _ (List.mem_cons_of_mem _
        (List.mem_cons_of_mem _ (List.mem_cons_of_mem _ (List.mem_cons_of_mem _
          (List.mem_cons_of_mem _ (List.mem_cons_of_mem _
            (List.mem_cons_self _ _)))))))))).mp hmem
    rw [avgFullLoad_rowsC8, max_eq_left (by norm_num)] at h
    linarith

/-! ## Full-day restriction (C2) -/

theorem map_rowDay_filter (rows : List Record) :
    ∀ l : List Record,
      (l.filter (fun r => isFullDay rows (rowDay r))).map rowDay =
        (l.map rowDay).filter (isFullDay rows) := by
  intro l
  induction l with
  | nil => rfl
  | cons r l ih =>
    by_cases h : isFullDay rows (rowDay r) <;>
      simp [List.filter_cons, List.map_cons, h, ih]

theorem fullDayRecords_map_rowDay (rows : List Record) :
    (fullDayRecords rows).map rowDay = (rows.map rowDay).filter (isFullDay rows) :=
  map_rowDay_filter rows rows

theorem daysOf_fullDayRecords (rows : List Record) :
    daysOf (fullDayRecords rows) = fullDays rows := by
  rw [daysOf, groupKeys, fullDayRecords_map_rowDay, dedup_filter]
  rfl

theorem dayRows_fullDayRecords (rows : List Record) (d : String)
    (hd : isFullDay rows d = true) :
    dayRows (fullDayRecords rows) d = dayRows rows d := by
  rw [dayRows, groupRows, fullDayRecords, List.filter_filter]
  apply List.filter_congr
  intro r _
  by_cases hq : rowDay r = d
  · rw [hq]
    simp [hd]
  · simp [hq]

theorem fullDays_fullDayRecords (rows : List Record) :
    fullDays (fullDayRecords rows) = fullDays rows := by
  rw [fullDays, daysOf_fullDayRecords]
  apply List.filter_eq_self.mpr
  intro d hd
  have hfull : isFullDay rows d = true := (List.mem_filter.mp hd).2
  rw [isFullDay, dayRows_fullDayRecords rows d hfull]
  exact hfull

theorem fullDayLoads_fullDayRecords (rows : List Record) :
    fullDayLoads (fullDayRecords rows) = fullDayLoads rows := by
  rw [fullDayLoads_eq_map, fullDayLoads_eq_map, fullDays_fullDayRecords]
  apply List.map_congr_left
  intro d hd
  have hfull : isFullDay rows d = true := (List.mem_filter.mp hd).2
  rw [dailyLoad, dailyLoad, dayRows_fullDayRecords rows d hfull]

/-- C2 (amended): days with 20 or fewer records are excluded from EV/non-EV
classification — removing their records changes nothing in the classifier's
input or output (the system-sizing per-day aggregates and the rolling-mean
PV anomaly baseline, by contrast, are computed over all days; see the
counterexample). -/
theorem full_day_exclusion_amended (rows : List Record) :
    daysOf (fullDayRecords rows) = fullDays rows ∧
    fullDayLoads (fullDayRecords rows) = fullDayLoads rows ∧
    detectEvDays (fullDayRecords rows) = detectEvDays rows := by
  refine ⟨daysOf_fullDayRecords rows, fullDayLoads_fullDayRecords rows, ?_⟩
  rw [detectEvDays, detectEvDays, fullDayLoads_fullDayRecords]

/-! ## Concrete sizing / PV-anomaly evaluations (C2 counterexample) -/

theorem mem_mkPvDay_date (d : String) (p : ℚ) (n : ℕ) (r : Record)
    (h : r ∈ mkPvDay d p n) : r.date = d := by
  rcases List.mem_map.mp h with ⟨i, _, rfl⟩
  rfl

theorem mkPvDay_sum_pv (d : String) (p : ℚ) (n : ℕ) :
    ((mkPvDay d p n).map (·.pv)).sum = n * p := by
  rw [mkPvDay, List.map_map]
  have : ((fun r : Record => r.pv) ∘ fun _ : ℕ =>
      ({ date := d, hour := "00:00", pv := p, gridLoadE := 0
         backupLoadE := 0, gridE := 0, batteryE := 0, avgSoc := 0 } : Record)) =
      fun _ : ℕ => p := rfl
  rw [this]
  simp only [List.map_const', List.length_range, List.sum_replicate, nsmul_eq_mul]

theorem dailyPv_rowsC2a_f1 : dailyPv rowsC2a "f1" = 21 := by
  rw [dailyPv, show dayRows rowsC2a "f1" = mkPvDay "f1" 1 21 from rfl, mkPvDay_sum_pv]
  norm_num

theorem dailyPv_rowsC2a_f2 : dailyPv rowsC2a "f2" = 0 := by
  rw [dailyPv, show dayRows rowsC2a "f2" = mkPvDay "f2" 0 1 from rfl, mkPvDay_sum_pv]
  norm_num

theorem dailyPv_rowsC2b_e1 : dailyPv rowsC2b "e1" = 10 := by
  rw [dailyPv, show dayRows rowsC2b "e1" = mkPvDay "e1" (10/21) 21 from rfl, mkPvDay_sum_pv]
  norm_num

theorem dailyPv_rowsC2b_e2 : dailyPv rowsC2b "e2" = 10 := by
  rw [dailyPv, show dayRows rowsC2b "e2" = mkPvDay "e2" (10/21) 21 from rfl, mkPvDay_sum_pv]
  norm_num

theorem dailyPv_rowsC2b_e3 : dailyPv rowsC2b "e3" = 10 := by
  rw [dailyPv, show dayRows rowsC2b "e3" = mkPvDay "e3" (10/21) 21 from rfl, mkPvDay_sum_pv]
  norm_num

theorem dailyPv_rowsC2b_e4 : dailyPv rowsC2b "e4" = 0 := by
  rw [dailyPv, show dayRows rowsC2b "e4" = mkPvDay "e4" 0 1 from rfl, mkPvDay_sum_pv]
  norm_num

theorem dailyPv_rowsC2b_e5 : dailyPv rowsC2b "e5" = 5 := by
  rw [dailyPv, show dayRows rowsC2b "e5" = mkPvDay "e5" (5/21) 21 from rfl, mkPvDay_sum_pv]
  norm_num

theorem avgDailyPv_rowsC2a : avgDailyPv rowsC2a = 21/2 := by
  rw [avgDailyPv, show daysOf rowsC2a = ["f1", "f2"] from by decide]
  simp only [List.map_cons, List.map_nil, dailyPv_rowsC2a_f1, dailyPv_rowsC2a_f2]
  rw [mean, if_neg (by simp)]
  norm_num

theorem specAvgDailyPvFull_rowsC2a : specAvgDailyPvFull rowsC2a = 21 := by
  rw [specAvgDailyPvFull, show fullDays rowsC2a = ["f1"] from by decide]
  simp only [List.map_cons, List.map_nil, dailyPv_rowsC2a_f1]
  rw [mean, if_neg (by simp)]
  norm_num

theorem pvAnomaly_rowsC2b : pvAnomalyDates rowsC2b = ["e4"] := by
  rw [pvAnomalyDates,
    show sortedDaysOf rowsC2b = ["e1", "e2", "e3", "e4", "e5"] from by decide]
  rw [show List.length ["e1", "e2", "e3", "e4", "e5"] = 5 from rfl,
    show List.range 5 = [0, 1, 2, 3, 4] from by decide]
  simp only [List.filterMap_cons, List.filterMap_nil]
  have m3 : mean [(10:ℚ), 10, 10] = 10 := by
    rw [mean, if_neg (by simp)]
    norm_num
  have m4 : mean [(10:ℚ), 10, 10, 0] = 15/2 := by
    rw [mean, if_neg (by simp)]
    norm_num
  norm_num [pvWindow, m3, m4,
    dailyPv_rowsC2b_e1, dailyPv_rowsC2b_e2, dailyPv_rowsC2b_e3,
    dailyPv_rowsC2b_e4, dailyPv_rowsC2b_e5,
    List.getD_cons_succ, List.getD_cons_zero]

theorem specPvAnomaly_rowsC2b : specPvAnomalyDatesFull rowsC2b = ["e5"] := by
  rw [specPvAnomalyDatesFull]
  rw [show insSortBy strLe (fullDays rowsC2b) = ["e1", "e2", "e3", "e5"] from by decide]
  rw [show List.length ["e1", "e2", "e3", "e5"] = 4 from rfl,
    show List.range 4 = [0, 1, 2, 3] from by decide]
  simp only [List.filterMap_cons, List.filterMap_nil]
  have m3 : mean [(10:ℚ), 10, 10] = 10 := by
    rw [mean, if_neg (by simp)]
    norm_num
  norm_num [pvWindow, m3,
    dailyPv_rowsC2b_e1, dailyPv_rowsC2b_e2, dailyPv_rowsC2b_e3,
    dailyPv_rowsC2b_e5,
    List.getD_cons_succ, List.getD_cons_zero]

/-- C2 counterexample: a partial (single-record) day is *not* excluded
from sizing or from the PV anomaly baseline.  With one full PV day and one
zero-PV partial day, `avg_daily_pv` is 10.5, not the 21 that excluding the
partial day would give; and with three full 10-kWh days, one zero-PV
partial day and one full 5-kWh day, the detector flags the partial day
"e4" (and dilutes the baseline so that "e5" is missed), whereas excluding
partial days it would flag "e5". -/
theorem full_day_exclusion_counterexample :
    avgDailyPv rowsC2a ≠ specAvgDailyPvFull rowsC2a ∧
    pvAnomalyDates rowsC2b = ["e4"] ∧
    specPvAnomalyDatesFull rowsC2b = ["e5"] := by
  refine ⟨?_, pvAnomaly_rowsC2b, specPvAnomaly_rowsC2b⟩
  rw [avgDailyPv_rowsC2a, specAvgDailyPvFull_rowsC2a]
  norm_num

/-! ## ROI payback lemmas -/

theorem partialSum_zero (s : ℚ) : partialSum s 0 = 0 := rfl

theorem partialSum_succ (s : ℚ) (n : ℕ) :
    partialSum s (n + 1) = partialSum s n + degSavings s n := by
  rw [partialSum, partialSum, List.range_succ, List.map_append, List.sum_append]
  simp

theorem degSavings_pos (s : ℚ) (hs : 0 < s) (n : ℕ) : 0 < degSavings s n :=
  mul_pos hs (pow_pos (by norm_num) n)

theorem partialSum_mono (s : ℚ) (hs : 0 < s) {m n : ℕ} (h : m ≤ n) :
    partialSum s m ≤ partialSum s n := by
  induction n, h using Nat.le_induction with
  | base => exact le_rfl
  | succ k hk ih =>
    rw [partialSum_succ]
    have := degSavings_pos s hs k
    linarith

theorem partialSum_pos (s : ℚ) (hs : 0 < s) {n : ℕ} (h : 0 < n) :
    0 < partialSum s n := by
  have h1 : 0 < partialSum s 1 := by
    rw [partialSum_succ, partialSum_zero]
    have := degSavings_pos s hs 0
    linarith
  exact lt_of_lt_of_le h1 (partialSum_mono s hs h)

theorem paybackGo_frozen (s c p : ℚ) :
    ∀ fuel n cum, paybackGo s c fuel n cum (some p) = some p := by
  intro fuel
  induction fuel with
  | zero => intro n cum; rfl
  | succ f ih => intro n cum; rw [paybackGo]; exact ih (n + 1) _

theorem paybackGo_spec (s c : ℚ) (hs : 0 < s) :
    ∀ fuel n cum pb,
      cum = partialSum s n →
      (pb = none → cum < c) →
      (∀ q, pb = some q → cumTo s q = c ∧ 0 < q) →
      ∀ p, paybackGo s c fuel n cum pb = some p → cumTo s p = c ∧ 0 < p := by
  intro fuel
  induction fuel with
  | zero =>
    intro n cum pb _ _ hsome p hp
    exact hsome p hp
  | succ f ih =>
    intro n cum pb hcum hnone hsome p hp
    rcases pb with _ | q
    · simp only [paybackGo] at hp
      by_cases hcross : c ≤ cum + degSavings s n
      · have hys : 0 < degSavings s n := degSavings_pos s hs n
        have hprev : cum < c := hnone rfl
        simp only [if_pos hcross, if_pos hys] at hp
        have hval : cumTo s ((n : ℚ) + (c - cum) / degSavings s n) = c ∧
            0 < (n : ℚ) + (c - cum) / degSavings s n := by
          set fr := (c - cum) / degSavings s n with hfr
          have hf0 : 0 < fr := div_pos (by linarith) hys
          have hf1 : fr ≤ 1 := (div_le_one hys).mpr (by linarith)
          have hqpos : 0 < (n : ℚ) + fr := by positivity
          refine ⟨?_, hqpos⟩
          rcases lt_or_eq_of_le hf1 with hflt | hfeq
          · have hfl : ⌊(n : ℚ) + fr⌋ = n := by
              rw [add_comm, Int.floor_add_nat]
              rw [Int.floor_eq_zero_iff.mpr ⟨le_of_lt hf0, hflt⟩]
              ring
            rw [cumTo, hfl, Int.toNat_natCast]
            have hz : ((n : ℚ) + fr) - ((n : ℤ) : ℚ) = fr := by push_cast; ring
            rw [hz, hfr, div_mul_cancel₀ _ (ne_of_gt hys), ← hcum]
            ring
          · have hceq : c - cum = degSavings s n := by
              rw [hfr] at hfeq
              field_simp at hfeq
              linarith
            rw [hfeq]
            have hcast : (n : ℚ) + 1 = ((n + 1 : ℕ) : ℚ) := by push_cast; ring
            rw [hcast, cumTo, Int.floor_natCast, Int.toNat_natCast, partialSum_succ]
            have hz : (((n + 1 : ℕ) : ℚ)) - (((n + 1 : ℕ) : ℤ) : ℚ) = 0 := by
              push_cast
              ring
            rw [hz, zero_mul, add_zero, ← hcum]
            linarith
        exact ih (n + 1) _ _ (by rw [hcum, partialSum_succ])
          (fun hn => absurd hn (by simp))
          (fun q hq => by
            injection hq with hq'
            exact hq' ▸ hval) p hp
      · simp only [if_neg hcross] at hp
        exact ih (n + 1) _ _ (by rw [hcum, partialSum_succ])
          (fun _ => lt_of_not_ge hcross)
          (fun q hq => by simp at hq) p hp
    · rw [paybackGo_frozen] at hp
      obtain rfl : q = p := Option.some.inj hp
      exact hsome q rfl

theorem paybackGo_none_iff (s c : ℚ) (hs : 0 < s) :
    ∀ fuel n cum pb,
      cum = partialSum s n →
      (pb = none → cum < c) →
      (paybackGo s c fuel n cum pb = none ↔
        pb = none ∧ partialSum s (fuel + n) < c) := by
  intro fuel
  induction fuel with
  | zero =>
    intro n cum pb hcum hnone
    constructor
    · intro h
      refine ⟨h, ?_⟩
      rw [Nat.zero_add, ← hcum]
      exact hnone h
    · intro h
      exact h.1
  | succ f ih =>
    intro n cum pb hcum hnone
    rcases pb with _ | q
    · simp only [paybackGo]
      by_cases hcross : c ≤ cum + degSavings s n
      · simp only [if_pos hcross]
        constructor
        · intro h
          rw [paybackGo_frozen] at h
          exact absurd h (by simp)
        · rintro ⟨-, habs⟩
          have h1 : partialSum s (n + 1) ≤ partialSum s (f + 1 + n) :=
            partialSum_mono s hs (by omega)
          rw [partialSum_succ, ← hcum] at h1
          linarith
      · simp only [if_neg hcross]
        have := ih (n + 1) _ none (by rw [hcum, partialSum_succ])
          (fun _ => lt_of_not_ge hcross)
        rw [this, show f + (n + 1) = f + 1 + n from by omega]
        simp
    · rw [paybackGo_frozen]
      simp

theorem paybackYear_none_iff (s c : ℚ) (hs : 0 < s) (hc : 0 < c) :
    paybackYear s c = none ↔ partialSum s 26 < c := by
  have h := paybackGo_none_iff s c hs 26 0 0 none (partialSum_zero s).symm
    (fun _ => hc)
  rw [paybackYear, h]
  simp

theorem paybackYear_spec (s c : ℚ) (hs : 0 < s) (hc : 0 < c) (p : ℚ)
    (hp : paybackYear s c = some p) : cumTo s p = c ∧ 0 < p :=
  paybackGo_spec s c hs 26 0 0 none (partialSum_zero s).symm
    (fun _ => hc)
    (fun q hq => by simp at hq) p hp

theorem cumTo_strict_mono (s : ℚ) (hs : 0 < s) {t u : ℚ} (ht : 0 ≤ t)
    (htu : t < u) : cumTo s t < cumTo s u := by
  have hu : 0 ≤ u := le_trans ht (le_of_lt htu)
  have hft : (0 : ℤ) ≤ ⌊t⌋ := Int.floor_nonneg.mpr ht
  have hfu : (0 : ℤ) ≤ ⌊u⌋ := Int.floor_nonneg.mpr hu
  have hle : ⌊t⌋ ≤ ⌊u⌋ := Int.floor_le_floor (le_of_lt htu)
  rcases eq_or_lt_of_le hle with heq | hlt
  · rw [cumTo, cumTo, ← heq]
    have hdeg := degSavings_pos s hs ⌊t⌋.toNat
    have hlt' : (t - ⌊t⌋) * degSavings s ⌊t⌋.toNat <
        (u - ⌊t⌋) * degSavings s ⌊t⌋.toNat :=
      mul_lt_mul_of_pos_right (by linarith) hdeg
    linarith
  · have h1 : cumTo s t < partialSum s (⌊t⌋.toNat + 1) := by
      rw [cumTo, partialSum_succ]
      have hdeg := degSavings_pos s hs ⌊t⌋.toNat
      have hfrac : t - ⌊t⌋ < 1 := by
        have := Int.lt_floor_add_one t
        linarith
      nlinarith
    have h2 : partialSum s (⌊t⌋.toNat + 1) ≤ partialSum s ⌊u⌋.toNat :=
      partialSum_mono s hs (by omega)
    have h3 : partialSum s ⌊u⌋.toNat ≤ cumTo s u := by
      rw [cumTo]
      have hdeg := degSavings_pos s hs ⌊u⌋.toNat
      have hfrac : 0 ≤ u - ⌊u⌋ := by
        have := Int.floor_le u
        linarith
      nlinarith
    linarith

/-- C7: the ROI projector returns nothing when no configuration is given;
the "no savings" error sentinel when annual savings are non-positive; and
otherwise, for a positive cost whose crossing the 0.5%/year-degraded
cumulative savings reach, the reported `simple_payback` is the fractional
year `p` at which cumulative degraded savings *first* reach the cost
(cumulative savings at `p` equal the cost exactly, and are below it at
every earlier time), with
`remaining_payback = max 0 (simple_payback − system_age)`. -/
theorem roi_payback_spec (S C age : ℚ) :
    computeRoi none S = none ∧
    (S ≤ 0 → computeRoi (some ⟨C, age⟩) S = some RoiResult.noSavings) ∧
    (0 < S → 0 < C → C ≤ partialSum S 26 → (paybackYear S C).isSome = true) ∧
    (∀ p, 0 < S → 0 < C → paybackYear S C = some p →
      cumTo S p = C ∧
      (∀ t, 0 ≤ t → t < p → cumTo S t < C) ∧
      roiSimplePayback (computeRoi (some ⟨C, age⟩) S) = some p ∧
      roiRemainingPayback (computeRoi (some ⟨C, age⟩) S) = some (max 0 (p - age))) := by
  refine ⟨rfl, fun hS => by rw [computeRoi, if_pos hS], ?_, ?_⟩
  · intro hS hC hreach
    rcases h : paybackYear S C with _ | p
    · rw [paybackYear_none_iff S C hS hC] at h
      linarith
    · rfl
  · intro p hS hC hpb
    obtain ⟨hcum, hp0⟩ := paybackYear_spec S C hS hC p hpb
    refine ⟨hcum, fun t ht htp => ?_, ?_, ?_⟩
    · rw [← hcum]
      exact cumTo_strict_mono S hS ht htp
    · rw [computeRoi, if_neg (not_le.mpr hS)]
      simp only [roiSimplePayback, hpb]
      rw [if_neg (ne_of_gt hp0)]
    · rw [computeRoi, if_neg (not_le.mpr hS)]
      simp only [roiRemainingPayback, hpb]
      rw [if_neg (ne_of_gt hp0)]

/-- C10: the payback search accumulates exactly the 26 degraded yearly
terms (years 0–25): with positive savings it reports `null` exactly when
the cost exceeds that 26-term cumulative sum, and also reports `null` in
the boundary case where the crossing year evaluates to exactly 0. -/
theorem roi_payback_horizon_null (S C age : ℚ) :
    (0 < S → partialSum S 26 < C →
      paybackYear S C = none ∧
      roiSimplePayback (computeRoi (some ⟨C, age⟩) S) = none ∧
      roiRemainingPayback (computeRoi (some ⟨C, age⟩) S) = none) ∧
    (0 < S → 0 < C → (paybackYear S C = none ↔ partialSum S 26 < C)) ∧
    (0 < S → paybackYear S C = some 0 →
      roiSimplePayback (computeRoi (some ⟨C, age⟩) S) = none ∧
      roiRemainingPayback (computeRoi (some ⟨C, age⟩) S) = none) := by
  refine ⟨?_, fun hS hC => paybackYear_none_iff S C hS hC, ?_⟩
  · intro hS hhor
    have hC : 0 < C := lt_trans (partialSum_pos S hS (by norm_num)) hhor
    have hnone : paybackYear S C = none := (paybackYear_none_iff S C hS hC).mpr hhor
    refine ⟨hnone, ?_, ?_⟩
    · rw [computeRoi, if_neg (not_le.mpr hS)]
      simp only [roiSimplePayback, hnone]
    · rw [computeRoi, if_neg (not_le.mpr hS)]
      simp only [roiRemainingPayback, hnone]
  · intro hS hzero
    constructor
    · rw [computeRoi, if_neg (not_le.mpr hS)]
      simp only [roiSimplePayback, hzero]
      simp
    · rw [computeRoi, if_neg (not_le.mpr hS)]
      simp only [roiRemainingPayback, hzero]
      simp

theorem partialSum_one_le (n : ℕ) : partialSum 1 n ≤ (n : ℚ) := by
  induction n with
  | zero =>
    rw [partialSum_zero]
    simp
  | succ k ih =>
    rw [partialSum_succ]
    have hd : degSavings 1 k ≤ 1 := by
      rw [degSavings, one_mul]
      exact pow_le_one₀ (by norm_num) (by norm_num)
    push_cast
    linarith

theorem paybackYear_100_100 : paybackYear 100 100 = some 1 := by
  norm_num [paybackYear, paybackGo, degSavings, paybackGo_frozen]

theorem paybackYear_1_0 : paybackYear 1 0 = some 0 := by
  norm_num [paybackYear, paybackGo, degSavings, paybackGo_frozen]

/-- C7 witness: with annual savings 100, cost 100 and age 0.25 the payback
crosses at exactly one year: the cumulative curve reaches 100 there, the
reported payback is 1 and the remaining payback 0.75; with savings 0 the
"no savings" sentinel is returned. -/
theorem roi_payback_spec_witness :
    (paybackYear 100 100).isSome = true ∧
    cumTo 100 1 = 100 ∧
    roiSimplePayback (computeRoi (some ⟨100, 1/4⟩) 100) = some 1 ∧
    roiRemainingPayback (computeRoi (some ⟨100, 1/4⟩) 100) = some (3/4) ∧
    computeRoi (some ⟨100, 1/4⟩) 0 = some RoiResult.noSavings := by
  have hreach : (100 : ℚ) ≤ partialSum 100 26 := by
    have h1 : partialSum 100 1 = 100 := by
      rw [partialSum_succ, partialSum_zero, degSavings]
      norm_num
    have := partialSum_mono 100 (by norm_num) (show 1 ≤ 26 by norm_num)
    linarith
  have h := (roi_payback_spec 100 100 (1/4)).2.2.2 1 (by norm_num) (by norm_num)
    paybackYear_100_100
  refine ⟨(roi_payback_spec 100 100 (1/4)).2.2.1 (by norm_num) (by norm_num) hreach,
    h.1, h.2.2.1, ?_, (roi_payback_spec 0 100 (1/4)).2.1 le_rfl⟩
  rw [h.2.2.2, show max (0:ℚ) (1 - 1/4) = 3/4 from by rw [max_eq_right] <;> norm_num]

/-- C10 witness: with savings 1 a cost of 1000 is not reached within the
26-term horizon (the cumulative sum is below 26), so the payback fields
are `null`; and with cost 0 the crossing year is exactly 0, which is also
reported as `null` in both fields. -/
theorem roi_payback_horizon_null_witness :
    paybackYear 1 1000 = none ∧
    roiSimplePayback (computeRoi (some ⟨1000, 2⟩) 1) = none ∧
    roiRemainingPayback (computeRoi (some ⟨1000, 2⟩) 1) = none ∧
    paybackYear 1 0 = some 0 ∧
    roiSimplePayback (computeRoi (some ⟨0, 2⟩) 1) = none ∧
    roiRemainingPayback (computeRoi (some ⟨0, 2⟩) 1) = none := by
  have hbound : partialSum 1 26 < 1000 := by
    have := partialSum_one_le 26
    have h26 : ((26 : ℕ) : ℚ) = 26 := by norm_num
    linarith [h26 ▸ this]
  have h1 := (roi_payback_horizon_null 1 1000 2).1 (by norm_num) hbound
  have h3 := (roi_payback_horizon_null 1 0 2).2.2 (by norm_num) paybackYear_1_0
  exact ⟨h1.1, h1.2.1, h1.2.2, paybackYear_1_0, h3.1, h3.2⟩

end Solar
